import Mathlib

/-!
# Gunyah hypervisor: virtual ETM device, SMCCC call dispatcher, VIC binding interface

A shallow embedding of

* `hyp/vm/vetm/src/vetm.c` (trap-and-emulate access to the per-CPU trace unit),
* `hyp/vm/smccc/aarch64/src/smccc_64.c` (SMC/HVC call dispatch),
* the binding protocol declared in `hyp/interfaces/vic/include/vic.h`,

together with the properties of these functions.

Conventions.  Machine integers are natural numbers; every C conversion or
operation that can wrap is written with an explicit reduction modulo `2 ^ w`.
Everything the C code calls but which lives outside these files (generated
bit-field accessors, platform constants, the ETM driver, the scheduler, the
event handlers) is a parameter of the embedding.
-/

namespace Gunyah

/-! ## Machine arithmetic -/

/-- Conversion to `uint64_t` / `register_t` / `size_t` / `vmaddr_t`. -/
def u64 (n : Nat) : Nat := n % 2 ^ 64

/-- Conversion to `uint32_t`. -/
def u32 (n : Nat) : Nat := n % 2 ^ 32

/-- Subtraction of two 64-bit unsigned values, wrapping as in C. -/
def sub64 (a b : Nat) : Nat := (a % 2 ^ 64 + 2 ^ 64 - b % 2 ^ 64) % 2 ^ 64

/-! ## Generated bit-field accessors

The bit-field types `ETM_TRCVI_CTLR_t` and `ETM_TRCVI_CTLR_EXLEVEL_NS_t` and
their accessors are generated from type definitions that are not part of the
embedded files.  The accessors all follow one pattern: a getter is
`(bf >> shift) & mask`, a setter is `bf &= ~(mask << shift);
bf |= (val & mask) << shift`, `cast` and `raw` convert from and to the
storage word.  The positions of the fields are parameters. -/

/-- Getter of a bit-field member of `width` bits at `shift`. -/
def bitfield_get (bf shift width : Nat) : Nat :=
  (bf >>> shift) &&& (2 ^ width - 1)

/-- Setter of a bit-field member of `width` bits at `shift`, in a storage word
of `bits` bits (the complement of the mask is taken in that word). -/
def bitfield_set (bits bf shift width val : Nat) : Nat :=
  (bf &&& (2 ^ bits - 1 - ((2 ^ width - 1) <<< shift))) |||
    ((val &&& (2 ^ width - 1)) <<< shift)

/-- Positions of the members of `ETM_TRCVI_CTLR_t` (a 32-bit word) and of
`ETM_TRCVI_CTLR_EXLEVEL_NS_t` (an 8-bit word holding the 4-bit field) that
`vetm.c` uses. -/
structure ETM_TRCVI_CTLR_layout where
  /-- shift of the 4-bit member `exlevel_s` in `ETM_TRCVI_CTLR_t` -/
  exlevel_s_shift : Nat
  /-- shift of the 4-bit member `exlevel_ns` in `ETM_TRCVI_CTLR_t` -/
  exlevel_ns_shift : Nat
  /-- shift of the 1-bit member `el2` in `ETM_TRCVI_CTLR_EXLEVEL_NS_t` -/
  el2_shift : Nat
deriving DecidableEq, Repr

/-- A layout is well formed when both 4-bit members lie inside the 32-bit word
and do not overlap, and `el2` lies inside the 4-bit `exlevel_ns` value. -/
def ETM_TRCVI_CTLR_layout.WF (L : ETM_TRCVI_CTLR_layout) : Prop :=
  L.exlevel_s_shift + 4 ≤ 32 ∧ L.exlevel_ns_shift + 4 ≤ 32 ∧ L.el2_shift < 4 ∧
    (L.exlevel_s_shift + 4 ≤ L.exlevel_ns_shift ∨ L.exlevel_ns_shift + 4 ≤ L.exlevel_s_shift)

instance (L : ETM_TRCVI_CTLR_layout) : Decidable L.WF := by
  unfold ETM_TRCVI_CTLR_layout.WF; infer_instance

/-- The ETMv4 architectural layout of TRCVICTLR: EXLEVEL_S is bits 19:16,
EXLEVEL_NS is bits 23:20, and the EL2 bit is bit 2 of EXLEVEL_NS. -/
def etmv4_layout : ETM_TRCVI_CTLR_layout :=
  { exlevel_s_shift := 16, exlevel_ns_shift := 20, el2_shift := 2 }

/-- Absolute position in TRCVICTLR of the EL2 bit of EXLEVEL_NS. -/
def ETM_TRCVI_CTLR_layout.el2_pos (L : ETM_TRCVI_CTLR_layout) : Nat :=
  L.exlevel_ns_shift + L.el2_shift

def ETM_TRCVI_CTLR_cast (val : Nat) : Nat := u32 val

def ETM_TRCVI_CTLR_raw (bf : Nat) : Nat := bf

def ETM_TRCVI_CTLR_get_exlevel_ns (L : ETM_TRCVI_CTLR_layout) (bf : Nat) : Nat :=
  bitfield_get bf L.exlevel_ns_shift 4

def ETM_TRCVI_CTLR_set_exlevel_ns (L : ETM_TRCVI_CTLR_layout) (bf val : Nat) : Nat :=
  bitfield_set 32 bf L.exlevel_ns_shift 4 val

def ETM_TRCVI_CTLR_get_exlevel_s (L : ETM_TRCVI_CTLR_layout) (bf : Nat) : Nat :=
  bitfield_get bf L.exlevel_s_shift 4

def ETM_TRCVI_CTLR_set_exlevel_s (L : ETM_TRCVI_CTLR_layout) (bf val : Nat) : Nat :=
  bitfield_set 32 bf L.exlevel_s_shift 4 val

def ETM_TRCVI_CTLR_EXLEVEL_NS_cast (val : Nat) : Nat := val % 2 ^ 8

def ETM_TRCVI_CTLR_EXLEVEL_NS_raw (bf : Nat) : Nat := bf

def ETM_TRCVI_CTLR_EXLEVEL_NS_get_el2 (L : ETM_TRCVI_CTLR_layout) (bf : Nat) : Bool :=
  bitfield_get bf L.el2_shift 1 != 0

def ETM_TRCVI_CTLR_EXLEVEL_NS_set_el2 (L : ETM_TRCVI_CTLR_layout) (bf : Nat) (val : Bool) : Nat :=
  bitfield_set 8 bf L.el2_shift 1 (if val then 1 else 0)

/-! ## `vetm.c` -/

/-- The function `vetm_protect_trcvi_ctlr`: clear the EL2 bit of EXLEVEL_NS (when set) and
force EXLEVEL_S to `0xf`. -/
def vetm_protect_trcvi_ctlr (L : ETM_TRCVI_CTLR_layout) (trcvi_ctlr : Nat) : Nat :=
  let exlevel_ns :=
    ETM_TRCVI_CTLR_EXLEVEL_NS_cast (ETM_TRCVI_CTLR_get_exlevel_ns L trcvi_ctlr)
  -- disable hlos hypervisor tracing
  let trcvi_ctlr :=
    if ETM_TRCVI_CTLR_EXLEVEL_NS_get_el2 L exlevel_ns then
      let exlevel_ns := ETM_TRCVI_CTLR_EXLEVEL_NS_set_el2 L exlevel_ns false
      ETM_TRCVI_CTLR_set_exlevel_ns L trcvi_ctlr (ETM_TRCVI_CTLR_EXLEVEL_NS_raw exlevel_ns)
    else trcvi_ctlr
  -- remove secure world tracing
  ETM_TRCVI_CTLR_set_exlevel_s L trcvi_ctlr 0xf

/-- Platform constants and type parameters `vetm.c` is compiled against; none
of them is defined in the embedded files. -/
structure etm_platform where
  /-- guest physical address of the first per-CPU ETM block -/
  PLATFORM_ETM_BASE : Nat
  /-- distance between the blocks of consecutive physical CPUs -/
  ETM_STRIDE : Nat
  PLATFORM_MAX_CORES : Nat
  /-- size of the register block of one CPU -/
  ETM_SIZE_PERCPU : Nat
  /-- the value of offsetof(etm_t, trcprgctlr) -/
  offsetof_trcprgctlr : Nat
  /-- the value of offsetof(etm_t, trcvictlr) -/
  offsetof_trcvictlr : Nat
  /-- width in bits of the type `cpu_index_t` -/
  cpu_index_bits : Nat
  layout : ETM_TRCVI_CTLR_layout

/-- What the address checks may assume of the platform constants: the ETM
window fits in the 64-bit address space, a per-CPU block holds at least one
64-bit register and its size is a `size_t`, and every CPU index fits
`cpu_index_t`. -/
def etm_platform.window_WF (P : etm_platform) : Prop :=
  P.PLATFORM_ETM_BASE + P.ETM_STRIDE * P.PLATFORM_MAX_CORES < 2 ^ 64 ∧
    8 ≤ P.ETM_SIZE_PERCPU ∧ P.ETM_SIZE_PERCPU < 2 ^ 64 ∧
    P.PLATFORM_MAX_CORES ≤ 2 ^ P.cpu_index_bits

instance (P : etm_platform) : Decidable P.window_WF := by
  unfold etm_platform.window_WF; infer_instance

/-- What the register emulation may assume: `trcprgctlr` and `trcvictlr` are
distinct members of `etm_t`, and the bit-field layout is well formed. -/
def etm_platform.regs_WF (P : etm_platform) : Prop :=
  P.offsetof_trcprgctlr ≠ P.offsetof_trcvictlr ∧ P.layout.WF

instance (P : etm_platform) : Decidable P.regs_WF := by
  unfold etm_platform.regs_WF; infer_instance

/-- The guest general-purpose registers `vcpu_regs_gpr.x[0..30]` of a thread. -/
structure vcpu_gpr_t where
  x : Nat → Nat

/-- The fields of `thread_t` the embedded code reads or writes. -/
structure thread where
  vcpu_regs_gpr : vcpu_gpr_t
  vetm_enabled : Bool
  /-- shadow of TRCVICTLR, the raw 32-bit word of an `ETM_TRCVI_CTLR_t` -/
  vetm_trcvi_ctlr : Nat

/-- A thread is well typed when its registers are 64-bit values. -/
def thread.WF (t : thread) : Prop :=
  ∀ i, i < 31 → t.vcpu_regs_gpr.x i < 2 ^ 64

instance (t : thread) : Decidable t.WF := by
  unfold thread.WF; infer_instance

/-- A call into the ETM driver (`etm_set_reg` / `etm_get_reg`), which is outside
the embedded files. -/
inductive etm_call where
  | etm_set_reg (pcpu offset val access_size : Nat)
  | etm_get_reg (pcpu offset access_size : Nat)
deriving DecidableEq, Repr

/-- What the surrounding kernel answers on the executing CPU: the running
thread, the index of the physical CPU, the primary VCPU of each physical CPU
(threads are named by numbers, `none` is the null pointer), and the value
`etm_get_reg` stores through its pointer, which may depend on the calls the
driver has seen so far and on the previous content of the destination. -/
structure cpu_context where
  thread_get_self : Nat
  cpulocal_get_index : Nat
  scheduler_get_primary_vcpu : Nat → Option Nat
  etm_get_reg : List etm_call → (pcpu offset old access_size : Nat) → Nat

/-- The state `vetm.c` acts on: the running thread and the calls made to the
ETM driver so far (oldest first). -/
structure vetm_state where
  vcpu : thread
  etm_calls : List etm_call

/-- Result of an access handler: the returned flag, the content of `*value`
afterwards, and the state afterwards. -/
structure vetm_result where
  ret : Bool
  value : Nat
  state : vetm_state

/-- The function `vetm_access_allowed(size, offset)`. -/
def vetm_access_allowed (P : etm_platform) (size offset : Nat) : Bool :=
  -- First check if the access is size-aligned
  if (offset &&& sub64 size 1) != 0 then false
  else if size == 4 then decide (offset ≤ sub64 P.ETM_SIZE_PERCPU size)
  else if size == 8 then decide (offset ≤ sub64 P.ETM_SIZE_PERCPU size)
  else false

/-- The function `vetm_vdevice_write(vcpu, pcpu, offset, val, access_size)`. -/
def vetm_vdevice_write (P : etm_platform) (s : vetm_state)
    (pcpu offset val access_size : Nat) : vetm_result :=
  let write_val := val
  let upd : thread × Nat :=
    if offset == P.offsetof_trcprgctlr then
      ({ s.vcpu with vetm_enabled := (val &&& 0x1) != 0 }, write_val)
    else if offset == P.offsetof_trcvictlr then
      let trcvi_ctlr := ETM_TRCVI_CTLR_cast (u32 write_val)
      let vcpu := { s.vcpu with vetm_trcvi_ctlr := vetm_protect_trcvi_ctlr P.layout trcvi_ctlr }
      (vcpu, u64 (ETM_TRCVI_CTLR_raw vcpu.vetm_trcvi_ctlr))
    else (s.vcpu, write_val)
  { ret := true
    value := val
    state :=
      { vcpu := upd.1
        etm_calls := s.etm_calls ++ [etm_call.etm_set_reg pcpu offset upd.2 access_size] } }

/-- The function `vetm_vdevice_read(vcpu, pcpu, offset, val, access_size)`. -/
def vetm_vdevice_read (cx : cpu_context) (s : vetm_state)
    (pcpu offset val access_size : Nat) : vetm_result :=
  { ret := true
    value := cx.etm_get_reg s.etm_calls pcpu offset val access_size
    state :=
      { vcpu := s.vcpu
        etm_calls := s.etm_calls ++ [etm_call.etm_get_reg pcpu offset access_size] } }

/-- The offset of `ipa` in the block of physical CPU `pcpu`, as computed in
`vetm_handle_vdevice_access`: `ipa - PLATFORM_ETM_BASE - pcpu * ETM_STRIDE`. -/
def vetm_block_offset (P : etm_platform) (pcpu ipa : Nat) : Nat :=
  sub64 (sub64 ipa P.PLATFORM_ETM_BASE) (u64 (pcpu * P.ETM_STRIDE))

/-- The function `vetm_handle_vdevice_access(ipa, access_size, value, is_write)`; `value` is
the content of `*value` on entry. -/
def vetm_handle_vdevice_access (P : etm_platform) (cx : cpu_context) (s : vetm_state)
    (ipa access_size value : Nat) (is_write : Bool) : vetm_result :=
  let pcpu := cx.cpulocal_get_index
  let hlos := cx.scheduler_get_primary_vcpu pcpu
  if hlos ≠ some cx.thread_get_self then
    { ret := false, value := value, state := s }
  else if P.PLATFORM_ETM_BASE ≤ ipa ∧
      ipa < u64 (P.PLATFORM_ETM_BASE + P.ETM_STRIDE * P.PLATFORM_MAX_CORES) then
    let base_offset := sub64 ipa P.PLATFORM_ETM_BASE
    let access_pcpu := (base_offset / P.ETM_STRIDE) % 2 ^ P.cpu_index_bits
    let offset := vetm_block_offset P pcpu ipa
    if pcpu = access_pcpu ∧ vetm_access_allowed P access_size offset = true then
      if is_write then vetm_vdevice_write P s pcpu offset value access_size
      else vetm_vdevice_read cx s pcpu offset value access_size
    else { ret := false, value := value, state := s }
  else { ret := false, value := value, state := s }

/-- The function `vetm_handle_thread_load_state()`. -/
def vetm_handle_thread_load_state (P : etm_platform) (cx : cpu_context)
    (s : vetm_state) : vetm_state :=
  let pcpu := cx.cpulocal_get_index
  if some cx.thread_get_self = cx.scheduler_get_primary_vcpu pcpu then
    { s with
      etm_calls := s.etm_calls ++
        [etm_call.etm_set_reg pcpu P.offsetof_trcvictlr
          (ETM_TRCVI_CTLR_raw s.vcpu.vetm_trcvi_ctlr) 4] }
  else s

/-- One guest access trapped to the virtual ETM, with the kernel context it
runs in. -/
structure vetm_access where
  cx : cpu_context
  ipa : Nat
  access_size : Nat
  value : Nat
  is_write : Bool

/-- The state after handling a sequence of trapped accesses, one after the
other. -/
def vetm_run (P : etm_platform) : List vetm_access → vetm_state → vetm_state
  | [], s => s
  | a :: rest, s =>
    vetm_run P rest
      (vetm_handle_vdevice_access P a.cx s a.ipa a.access_size a.value a.is_write).state

/-- The EL2 bit of the EXLEVEL_NS field of a TRCVICTLR word. -/
def trcvi_ctlr_exlevel_ns_el2 (L : ETM_TRCVI_CTLR_layout) (trcvi_ctlr : Nat) : Bool :=
  ETM_TRCVI_CTLR_EXLEVEL_NS_get_el2 L
    (ETM_TRCVI_CTLR_EXLEVEL_NS_cast (ETM_TRCVI_CTLR_get_exlevel_ns L trcvi_ctlr))

/-! ## `smccc_64.c` -/

/-- The generated accessors of `smccc_function_id_t` (a 32-bit word) and of the
ISS words of the SMC and HVC traps; the types are defined outside the
embedded files, so the accessors are parameters. -/
structure smccc_abi where
  smccc_function_id_get_is_smc64 : Nat → Bool
  smccc_function_id_get_is_fast : Nat → Bool
  smccc_function_id_get_interface_id : Nat → Nat
  smccc_function_id_get_function : Nat → Nat
  ESR_EL2_ISS_SMC64_get_imm16 : Nat → Nat
  ESR_EL2_ISS_HVC_get_imm16 : Nat → Nat

/-- The SMC calling convention layout: function number in bits 15:0,
interface (owner) in bits 29:24, bit 30 selects the 64-bit convention, bit 31
a fast call; the immediate of SMC and HVC is bits 15:0 of the ISS. -/
def smccc_abi_arm : smccc_abi :=
  { smccc_function_id_get_is_smc64 := fun id => bitfield_get id 30 1 != 0
    smccc_function_id_get_is_fast := fun id => bitfield_get id 31 1 != 0
    smccc_function_id_get_interface_id := fun id => bitfield_get id 24 6
    smccc_function_id_get_function := fun id => bitfield_get id 0 16
    ESR_EL2_ISS_SMC64_get_imm16 := fun iss => bitfield_get iss 0 16
    ESR_EL2_ISS_HVC_get_imm16 := fun iss => bitfield_get iss 0 16 }

def smccc_function_id_cast (val : Nat) : Nat := u32 val

def smccc_client_id_cast (val : Nat) : Nat := u32 val

/-- The four `smccc_call_*` events. -/
inductive smccc_event where
  | fast_64
  | yielding_64
  | fast_32
  | yielding_32
deriving DecidableEq, Repr

/-- What a triggered event is given: the value parameters of
`trigger_smccc_call_*_event` and the content of the four return slots
`*ret0 .. *ret3` on entry. -/
structure smccc_call where
  interface_id : Nat
  function : Nat
  is_hvc : Bool
  arg1 : Nat
  arg2 : Nat
  arg3 : Nat
  arg4 : Nat
  arg5 : Nat
  arg6 : Nat
  client_id : Nat
  ret0 : Nat
  ret1 : Nat
  ret2 : Nat
  ret3 : Nat
deriving DecidableEq, Repr

/-- What a triggered event leaves behind: its boolean result and the content
of the four return slots on exit. -/
structure smccc_return where
  handled : Bool
  ret0 : Nat
  ret1 : Nat
  ret2 : Nat
  ret3 : Nat
deriving DecidableEq, Repr

/-- The handlers registered for the four events; they are outside the embedded
files.  A handler acts on the guest only through its result and the four
return slots. -/
structure smccc_handlers where
  trigger_smccc_call_fast_64_event : smccc_call → smccc_return
  trigger_smccc_call_yielding_64_event : smccc_call → smccc_return
  trigger_smccc_call_fast_32_event : smccc_call → smccc_return
  trigger_smccc_call_yielding_32_event : smccc_call → smccc_return

/-- The handler behind an event. -/
def smccc_handlers.trigger (H : smccc_handlers) : smccc_event → smccc_call → smccc_return
  | .fast_64 => H.trigger_smccc_call_fast_64_event
  | .yielding_64 => H.trigger_smccc_call_yielding_64_event
  | .fast_32 => H.trigger_smccc_call_fast_32_event
  | .yielding_32 => H.trigger_smccc_call_yielding_32_event

/-- Result of the dispatcher: the returned flag, the current thread
afterwards, and the events triggered on the way, in order, each with what it
was given. -/
structure smccc_outcome where
  handled : Bool
  current : thread
  triggered : List (smccc_event × smccc_call)

/-- The thread `current` with `x[0..3]` replaced. -/
def thread.set_x0_x3 (current : thread) (r0 r1 r2 r3 : Nat) : thread :=
  { current with
    vcpu_regs_gpr :=
      { x := fun i =>
          if i = 0 then r0 else if i = 1 then r1 else if i = 2 then r2
          else if i = 3 then r3 else current.vcpu_regs_gpr.x i } }

/-- The function `smccc_handle_call(is_hvc)`, acting on the thread `current`. -/
def smccc_handle_call (A : smccc_abi) (H : smccc_handlers) (is_hvc : Bool)
    (current : thread) : smccc_outcome :=
  let x := current.vcpu_regs_gpr.x
  let function_id := smccc_function_id_cast (u32 (x 0))
  if A.smccc_function_id_get_is_smc64 function_id then
    let call : smccc_call :=
      { interface_id := A.smccc_function_id_get_interface_id function_id
        function := A.smccc_function_id_get_function function_id
        is_hvc := is_hvc
        arg1 := u64 (x 1), arg2 := u64 (x 2), arg3 := u64 (x 3)
        arg4 := u64 (x 4), arg5 := u64 (x 5), arg6 := u64 (x 6)
        client_id := smccc_client_id_cast (u32 (x 7))
        ret0 := u64 (x 0), ret1 := u64 (x 1), ret2 := u64 (x 2), ret3 := u64 (x 3) }
    if A.smccc_function_id_get_is_fast function_id then
      let r := H.trigger_smccc_call_fast_64_event call
      { handled := r.handled
        current := current.set_x0_x3 (u64 r.ret0) (u64 r.ret1) (u64 r.ret2) (u64 r.ret3)
        triggered := [(smccc_event.fast_64, call)] }
    else
      let r := H.trigger_smccc_call_yielding_64_event call
      { handled := r.handled
        current := current.set_x0_x3 (u64 r.ret0) (u64 r.ret1) (u64 r.ret2) (u64 r.ret3)
        triggered := [(smccc_event.yielding_64, call)] }
  else
    let call : smccc_call :=
      { interface_id := A.smccc_function_id_get_interface_id function_id
        function := A.smccc_function_id_get_function function_id
        is_hvc := is_hvc
        arg1 := u32 (x 1), arg2 := u32 (x 2), arg3 := u32 (x 3)
        arg4 := u32 (x 4), arg5 := u32 (x 5), arg6 := u32 (x 6)
        client_id := smccc_client_id_cast (u32 (x 7))
        ret0 := u32 (x 0), ret1 := u32 (x 1), ret2 := u32 (x 2), ret3 := u32 (x 3) }
    if A.smccc_function_id_get_is_fast function_id then
      let r := H.trigger_smccc_call_fast_32_event call
      { handled := r.handled
        current :=
          current.set_x0_x3 (u64 (u32 r.ret0)) (u64 (u32 r.ret1)) (u64 (u32 r.ret2))
            (u64 (u32 r.ret3))
        triggered := [(smccc_event.fast_32, call)] }
    else
      let r := H.trigger_smccc_call_yielding_32_event call
      { handled := r.handled
        current :=
          current.set_x0_x3 (u64 (u32 r.ret0)) (u64 (u32 r.ret1)) (u64 (u32 r.ret2))
            (u64 (u32 r.ret3))
        triggered := [(smccc_event.yielding_32, call)] }

/-- The function `smccc_handle_vcpu_trap_smc64(iss)`. -/
def smccc_handle_vcpu_trap_smc64 (A : smccc_abi) (H : smccc_handlers) (iss : Nat)
    (current : thread) : smccc_outcome :=
  if A.ESR_EL2_ISS_SMC64_get_imm16 iss = 0 then smccc_handle_call A H false current
  else { handled := false, current := current, triggered := [] }

/-- The function `smccc_handle_vcpu_trap_hvc64(iss)`. -/
def smccc_handle_vcpu_trap_hvc64 (A : smccc_abi) (H : smccc_handlers) (iss : Nat)
    (current : thread) : smccc_outcome :=
  if A.ESR_EL2_ISS_HVC_get_imm16 iss = 0 then smccc_handle_call A H true current
  else { handled := false, current := current, triggered := [] }

/-- The event the dispatcher selects for a function identifier. -/
def smccc_event_of (A : smccc_abi) (function_id : Nat) : smccc_event :=
  match A.smccc_function_id_get_is_smc64 function_id,
    A.smccc_function_id_get_is_fast function_id with
  | true, true => .fast_64
  | true, false => .yielding_64
  | false, true => .fast_32
  | false, false => .yielding_32

/-- An event is one of the two 64-bit call classes. -/
def smccc_event.is_64 : smccc_event → Bool
  | .fast_64 => true
  | .yielding_64 => true
  | .fast_32 => false
  | .yielding_32 => false

/-- A handler invocation left the call unclaimed: it returned false and the
four return slots hold on exit what they held on entry. -/
def smccc_unclaimed (call : smccc_call) (r : smccc_return) : Prop :=
  r.handled = false ∧ r.ret0 = call.ret0 ∧ r.ret1 = call.ret1 ∧ r.ret2 = call.ret2 ∧
    r.ret3 = call.ret3

instance (call : smccc_call) (r : smccc_return) : Decidable (smccc_unclaimed call r) := by
  unfold smccc_unclaimed; infer_instance

/-! ## The VIC binding protocol (`vic.h`)

`vic.h` only declares `vic_bind_shared`, `vic_bind_private_vcpu`, `vic_unbind`
and `vic_unbind_sync`; their bodies are not part of the embedded files.  The
definitions below follow the specification of the binding protocol: each
operation is one atomic step on the tables and the sources, and concurrent
callers are interleavings of such steps. -/

/-- The result codes of `error_t` that the binding interface returns. -/
inductive error_t where
  | OK
  | ERROR_VIRQ_BOUND
  | ERROR_BUSY
  | ERROR_ARGUMENT_INVALID
deriving DecidableEq, Repr

/-- Modelled from the spec: the bound-state of a VIRQ source, `UNBOUND`
(initial and terminal), `BOUND` (claim held), `UNBINDING` (claim released from
the table, not yet reusable). -/
inductive virq_bound_state where
  | UNBOUND
  | BOUND
  | UNBINDING
deriving DecidableEq, Repr

/-- Modelled from the spec: the routing kind of a bound source. -/
inductive virq_routing where
  | shared
  | private_vcpu
deriving DecidableEq, Repr

/-- Modelled from the spec: the fields of a VIRQ source (`virq_source_t`):
bound-state, routing kind, target (the controller for shared routing, the VCPU
for private routing), VIRQ number, trigger kind and pending flag. -/
structure virq_source_t where
  state : virq_bound_state
  routing : virq_routing
  target : Nat
  virq : Nat
  trigger : Nat
  pending : Bool
deriving DecidableEq, Repr

/-- Modelled from the spec: the VIRQ number ranges valid for shared and for
private routing, which are configuration-time knowledge. -/
structure vic_ranges where
  shared_range : Nat → Bool
  private_range : Nat → Bool

/-- Modelled from the spec: the sources (named by numbers), the shared table
of every controller and the private table of every VCPU; a table slot holds
the claiming source or is empty. -/
structure vic_tables where
  source : Nat → virq_source_t
  shared_table : (vic virq : Nat) → Option Nat
  private_table : (vcpu virq : Nat) → Option Nat

/-- Modelled from the spec: before any bind every source is `UNBOUND` and
every slot is empty. -/
def vic_tables.init : vic_tables :=
  { source := fun _ =>
      { state := .UNBOUND, routing := .shared, target := 0, virq := 0, trigger := 0,
        pending := false }
    shared_table := fun _ _ => none
    private_table := fun _ _ => none }

/-- Replace the record of one source. -/
def vic_tables.set_source (σ : vic_tables) (source : Nat) (r : virq_source_t) : vic_tables :=
  { σ with source := fun s => if s = source then r else σ.source s }

/-- Replace the content of one slot of the shared table. -/
def vic_tables.set_shared (σ : vic_tables) (vic virq : Nat) (e : Option Nat) : vic_tables :=
  { σ with
    shared_table := fun c v => if c = vic ∧ v = virq then e else σ.shared_table c v }

/-- Replace the content of one slot of a private table. -/
def vic_tables.set_private (σ : vic_tables) (vcpu virq : Nat) (e : Option Nat) : vic_tables :=
  { σ with
    private_table := fun c v => if c = vcpu ∧ v = virq then e else σ.private_table c v }

/-- Modelled from the spec: `vic_bind_shared(source, vic, virq, trigger)`, whose
body is not in the embedded files.  It fails with `VIRQ_BOUND` if the source is
not `UNBOUND`, with `ARGUMENT_INVALID` if the VIRQ is outside the shared range,
with `BUSY` if the slot is already claimed; otherwise it atomically claims the
slot and the source becomes `BOUND` with shared routing.  The state of the
source is checked first: a second bind of a source on the slot it holds finds
the slot claimed and must fail with `VIRQ_BOUND`. -/
def vic_bind_shared (R : vic_ranges) (σ : vic_tables) (source vic virq trigger : Nat) :
    error_t × vic_tables :=
  if (σ.source source).state ≠ .UNBOUND then (.ERROR_VIRQ_BOUND, σ)
  else if R.shared_range virq = false then (.ERROR_ARGUMENT_INVALID, σ)
  else if (σ.shared_table vic virq).isSome then (.ERROR_BUSY, σ)
  else
    (.OK,
      (σ.set_shared vic virq (some source)).set_source source
        { state := .BOUND, routing := .shared, target := vic, virq := virq,
          trigger := trigger, pending := false })

/-- Modelled from the spec: `vic_bind_private_vcpu(source, vcpu, virq, trigger)`,
the same claim against the private table of the named VCPU. -/
def vic_bind_private_vcpu (R : vic_ranges) (σ : vic_tables) (source vcpu virq trigger : Nat) :
    error_t × vic_tables :=
  if (σ.source source).state ≠ .UNBOUND then (.ERROR_VIRQ_BOUND, σ)
  else if R.private_range virq = false then (.ERROR_ARGUMENT_INVALID, σ)
  else if (σ.private_table vcpu virq).isSome then (.ERROR_BUSY, σ)
  else
    (.OK,
      (σ.set_private vcpu virq (some source)).set_source source
        { state := .BOUND, routing := .private_vcpu, target := vcpu, virq := virq,
          trigger := trigger, pending := false })

/-- Modelled from the spec: `vic_unbind(source)`.  If the source is `BOUND` it is
removed from its table, its pending state is cleared and it becomes
`UNBINDING`; otherwise nothing happens. -/
def vic_unbind (σ : vic_tables) (source : Nat) : vic_tables :=
  let r := σ.source source
  if r.state = .BOUND then
    let σ1 :=
      match r.routing with
      | .shared => σ.set_shared r.target r.virq none
      | .private_vcpu => σ.set_private r.target r.virq none
    σ1.set_source source { r with state := .UNBINDING, pending := false }
  else σ

/-- Modelled from the spec: `vic_unbind_sync(source)` performs `vic_unbind` and,
once the cancellation and the grace period are over, resets the source to
`UNBOUND`. -/
def vic_unbind_sync (σ : vic_tables) (source : Nat) : vic_tables :=
  let σ1 := vic_unbind σ source
  σ1.set_source source { σ1.source source with state := .UNBOUND }

/-- Modelled from the spec: `virq_assert(source)` sets the pending flag of a
`BOUND` source and is ignored otherwise. -/
def virq_assert (σ : vic_tables) (source : Nat) : vic_tables :=
  let r := σ.source source
  if r.state = .BOUND then σ.set_source source { r with pending := true } else σ

/-- Modelled from the spec: `virq_clear(source)` clears the pending flag of a
source that is `BOUND` or `UNBINDING`. -/
def virq_clear (σ : vic_tables) (source : Nat) : vic_tables :=
  let r := σ.source source
  if r.state = .BOUND ∨ r.state = .UNBINDING then
    σ.set_source source { r with pending := false }
  else σ

/-- One call of the binding interface by some caller. -/
inductive vic_op where
  | bind_shared (source vic virq trigger : Nat)
  | bind_private_vcpu (source vcpu virq trigger : Nat)
  | unbind (source : Nat)
  | unbind_sync (source : Nat)
  | assert (source : Nat)
  | clear (source : Nat)
deriving DecidableEq, Repr

/-- The tables after one call. -/
def vic_step (R : vic_ranges) (σ : vic_tables) : vic_op → vic_tables
  | .bind_shared s c v t => (vic_bind_shared R σ s c v t).2
  | .bind_private_vcpu s c v t => (vic_bind_private_vcpu R σ s c v t).2
  | .unbind s => vic_unbind σ s
  | .unbind_sync s => vic_unbind_sync σ s
  | .assert s => virq_assert σ s
  | .clear s => virq_clear σ s

/-- The tables after a sequence of calls, in the order in which they take
effect. -/
def vic_run (R : vic_ranges) : List vic_op → vic_tables → vic_tables
  | [], σ => σ
  | op :: rest, σ => vic_run R rest (vic_step R σ op)

/-- The call releases the claim of `source`. -/
def vic_op.releases (source : Nat) : vic_op → Bool
  | .unbind s => decide (s = source)
  | .unbind_sync s => decide (s = source)
  | _ => false

/-- Source `source` is `BOUND` to the shared VIRQ `virq` of controller `vic`. -/
def bound_shared (σ : vic_tables) (source vic virq : Nat) : Prop :=
  (σ.source source).state = .BOUND ∧ (σ.source source).routing = .shared ∧
    (σ.source source).target = vic ∧ (σ.source source).virq = virq

instance (σ : vic_tables) (source vic virq : Nat) :
    Decidable (bound_shared σ source vic virq) := by
  unfold bound_shared; infer_instance

/-! ## Sample configurations -/

/-- A platform with eight cores, ETM blocks of 4 KiB every 1 MiB from
`0x6040000`, the ETMv4 register offsets and layout, and a 16-bit
`cpu_index_t`. -/
def sample_platform : etm_platform :=
  { PLATFORM_ETM_BASE := 0x6040000
    ETM_STRIDE := 0x100000
    PLATFORM_MAX_CORES := 8
    ETM_SIZE_PERCPU := 0x1000
    offsetof_trcprgctlr := 0x4
    offsetof_trcvictlr := 0x80
    cpu_index_bits := 16
    layout := etmv4_layout }

/-- Thread 7 runs on physical CPU 2 and is the primary VCPU of every CPU; the
ETM driver reads zero. -/
def sample_context : cpu_context :=
  { thread_get_self := 7
    cpulocal_get_index := 2
    scheduler_get_primary_vcpu := fun _ => some 7
    etm_get_reg := fun _ _ _ _ _ => 0 }

/-- A thread with all registers zero, tracing disabled and a zero shadow. -/
def sample_thread : thread :=
  { vcpu_regs_gpr := { x := fun _ => 0 }, vetm_enabled := false, vetm_trcvi_ctlr := 0 }

/-- The state of `sample_thread` before any call to the ETM driver. -/
def sample_state : vetm_state := { vcpu := sample_thread, etm_calls := [] }

/-- A 4-byte write of `0x00f0ff01` by `sample_context` at the offset of
`trcvictlr` in the block of CPU 2. -/
def sample_access : vetm_access :=
  { cx := sample_context, ipa := 0x6240080, access_size := 4, value := 0x00f0ff01,
    is_write := true }

/-- Handlers that claim nothing: every event returns false and leaves the four
return slots as it found them. -/
def sample_handlers_unclaimed : smccc_handlers :=
  { trigger_smccc_call_fast_64_event := fun call =>
      { handled := false, ret0 := call.ret0, ret1 := call.ret1, ret2 := call.ret2,
        ret3 := call.ret3 }
    trigger_smccc_call_yielding_64_event := fun call =>
      { handled := false, ret0 := call.ret0, ret1 := call.ret1, ret2 := call.ret2,
        ret3 := call.ret3 }
    trigger_smccc_call_fast_32_event := fun call =>
      { handled := false, ret0 := call.ret0, ret1 := call.ret1, ret2 := call.ret2,
        ret3 := call.ret3 }
    trigger_smccc_call_yielding_32_event := fun call =>
      { handled := false, ret0 := call.ret0, ret1 := call.ret1, ret2 := call.ret2,
        ret3 := call.ret3 } }

/-- Handlers that claim every call and answer with zero, the first two
arguments and the client id. -/
def sample_handlers_echo : smccc_handlers :=
  { trigger_smccc_call_fast_64_event := fun call =>
      { handled := true, ret0 := 0, ret1 := call.arg1, ret2 := call.arg2,
        ret3 := call.client_id }
    trigger_smccc_call_yielding_64_event := fun call =>
      { handled := true, ret0 := 0, ret1 := call.arg1, ret2 := call.arg2,
        ret3 := call.client_id }
    trigger_smccc_call_fast_32_event := fun call =>
      { handled := true, ret0 := 0, ret1 := call.arg1, ret2 := call.arg2,
        ret3 := call.client_id }
    trigger_smccc_call_yielding_32_event := fun call =>
      { handled := true, ret0 := 0, ret1 := call.arg1, ret2 := call.arg2,
        ret3 := call.client_id } }

/-- A guest about to make the fast 64-bit call `0xC4000001` with arguments
`x1 = 0x100000005`, `x2 = 2`, ..., `x7 = 7`. -/
def sample_caller_64 : thread :=
  { vcpu_regs_gpr :=
      { x := fun i => if i = 0 then 0xC4000001 else if i = 1 then 0x100000005 else i }
    vetm_enabled := false
    vetm_trcvi_ctlr := 0 }

/-- A guest about to make the yielding 32-bit call `0x04000001`, with bit 32
set in `x0` and in `x1`. -/
def sample_caller_32 : thread :=
  { vcpu_regs_gpr :=
      { x := fun i => if i = 0 then 0x104000001 else if i = 1 then 0x100000005 else i }
    vetm_enabled := false
    vetm_trcvi_ctlr := 0 }

/-- The call marshalled for a register file as the interface describes it:
interface id and function number of the identifier in the low 32 bits of `x0`,
the trap kind, `x1..x6` in full for a 64-bit class and reduced to their low 32
bits for a 32-bit class, the client id from the low 32 bits of `x7`, and the
return slots initialised from `x0..x3` in the same way. -/
def smccc_call_spec (A : smccc_abi) (is_hvc : Bool) (x : Nat → Nat) : smccc_call :=
  let function_id := u32 (x 0)
  let w : Nat → Nat :=
    if (smccc_event_of A function_id).is_64 then fun v => v else fun v => u32 v
  { interface_id := A.smccc_function_id_get_interface_id function_id
    function := A.smccc_function_id_get_function function_id
    is_hvc := is_hvc
    arg1 := w (x 1), arg2 := w (x 2), arg3 := w (x 3)
    arg4 := w (x 4), arg5 := w (x 5), arg6 := w (x 6)
    client_id := u32 (x 7)
    ret0 := w (x 0), ret1 := w (x 1), ret2 := w (x 2), ret3 := w (x 3) }

/-- The shared table and the sources agree: a slot holds a source exactly when
that source is `BOUND` to the slot with shared routing. -/
def vic_consistent (σ : vic_tables) : Prop :=
  (∀ c v s, σ.shared_table c v = some s → bound_shared σ s c v) ∧
    (∀ s c v, bound_shared σ s c v → σ.shared_table c v = some s)

/-- Ranges in which every VIRQ number is valid for both routing kinds. -/
def sample_ranges : vic_ranges :=
  { shared_range := fun _ => true, private_range := fun _ => true }

/-! ## Bit-field lemmas -/

theorem mask_shift_lt {bits sh w : Nat} (h : sh + w ≤ bits) :
    (2 ^ w - 1) <<< sh < 2 ^ bits := by
  rw [Nat.shiftLeft_eq]
  have h1 : 2 ^ w * 2 ^ sh ≤ 2 ^ bits := by
    rw [← Nat.pow_add]; exact Nat.pow_le_pow_right (by decide) (by omega)
  have h2 : 0 < 2 ^ w := Nat.two_pow_pos _
  have h3 : 0 < 2 ^ sh := Nat.two_pow_pos _
  have h4 : (2 ^ w - 1) * 2 ^ sh < 2 ^ w * 2 ^ sh :=
    Nat.mul_lt_mul_of_pos_right (by omega) h3
  omega

theorem testBit_bitfield_get (bf sh w i : Nat) :
    (bitfield_get bf sh w).testBit i = (decide (i < w) && bf.testBit (sh + i)) := by
  simp [bitfield_get]

theorem testBit_bitfield_set {bits sh w : Nat} (h : sh + w ≤ bits) (bf v i : Nat) :
    (bitfield_set bits bf sh w v).testBit i =
      if sh ≤ i ∧ i < sh + w then v.testBit (i - sh) else (decide (i < bits) && bf.testBit i) := by
  unfold bitfield_set
  have hm := mask_shift_lt h
  have e : 2 ^ bits - 1 - (2 ^ w - 1) <<< sh = 2 ^ bits - ((2 ^ w - 1) <<< sh + 1) := by omega
  rw [e, Nat.testBit_or, Nat.testBit_and, Nat.testBit_two_pow_sub_succ hm]
  simp only [Nat.testBit_shiftLeft, Nat.testBit_and, Nat.testBit_two_pow_sub_one]
  by_cases h1 : sh ≤ i
  · by_cases h2 : i < sh + w
    · have h4 : i - sh < w := by omega
      simp [h1, h2, h4]
    · have h4 : ¬ i - sh < w := by omega
      simp [h1, h2, h4, Bool.and_comm]
  · have h2 : ¬ i ≥ sh := by omega
    simp [h1, h2, Bool.and_comm]


theorem EXLEVEL_NS_get_el2_eq (L : ETM_TRCVI_CTLR_layout) (e : Nat) :
    ETM_TRCVI_CTLR_EXLEVEL_NS_get_el2 L e = e.testBit L.el2_shift := by
  simp [ETM_TRCVI_CTLR_EXLEVEL_NS_get_el2, bitfield_get, Nat.testBit, Nat.and_comm]

theorem testBit_lt32 {c : Nat} (hc : c < 2 ^ 32) {i : Nat} (hi : ¬ i < 32) :
    c.testBit i = false :=
  Nat.testBit_lt_two_pow (Nat.lt_of_lt_of_le hc (Nat.pow_le_pow_right (by decide) (by omega)))

/-- Bitwise description of `vetm_protect_trcvi_ctlr` on a 32-bit word. -/
theorem testBit_vetm_protect_trcvi_ctlr {L : ETM_TRCVI_CTLR_layout} (hL : L.WF)
    {c : Nat} (hc : c < 2 ^ 32) (i : Nat) :
    (vetm_protect_trcvi_ctlr L c).testBit i =
      if L.exlevel_s_shift ≤ i ∧ i < L.exlevel_s_shift + 4 then true
      else if i = L.el2_pos then false else c.testBit i := by
  obtain ⟨hs, hns, hk, hdis⟩ := hL
  have h32 : ¬ i < 32 → c.testBit i = false := fun h => testBit_lt32 hc h
  unfold vetm_protect_trcvi_ctlr
  simp only [ETM_TRCVI_CTLR_set_exlevel_s, ETM_TRCVI_CTLR_set_exlevel_ns,
    ETM_TRCVI_CTLR_EXLEVEL_NS_set_el2, ETM_TRCVI_CTLR_EXLEVEL_NS_raw,
    ETM_TRCVI_CTLR_EXLEVEL_NS_cast, ETM_TRCVI_CTLR_get_exlevel_ns, EXLEVEL_NS_get_el2_eq,
    ETM_TRCVI_CTLR_layout.el2_pos]
  rw [testBit_bitfield_set (by omega)]
  by_cases h1 : L.exlevel_s_shift ≤ i ∧ i < L.exlevel_s_shift + 4
  · have : (15 : Nat) = 2 ^ 4 - 1 := by decide
    rw [if_pos h1, if_pos h1, this, Nat.testBit_two_pow_sub_one]
    simp; omega
  · rw [if_neg h1, if_neg h1]
    split
    · rename_i hel2
      rw [testBit_bitfield_set (by omega), testBit_bitfield_set (by omega)]
      simp only [Nat.testBit_mod_two_pow, testBit_bitfield_get] at hel2 ⊢
      by_cases h2 : i = L.exlevel_ns_shift + L.el2_shift
      · subst h2
        simp
        omega
      · by_cases h3 : L.exlevel_ns_shift ≤ i ∧ i < L.exlevel_ns_shift + 4
        · have h4 : ¬ (L.el2_shift ≤ i - L.exlevel_ns_shift ∧ i - L.exlevel_ns_shift < L.el2_shift + 1) := by omega
          have h5 : i - L.exlevel_ns_shift < 8 := by omega
          have h6 : i - L.exlevel_ns_shift < 4 := by omega
          have h7 : L.exlevel_ns_shift + (i - L.exlevel_ns_shift) = i := by omega
          simp [h2, h3, h4, h5, h6, h7]
          intro; omega
        · by_cases h8 : i < 32
          · simp [h2, h3, h8]
          · simp [h2, h3, h8, h32 h8]
    · rename_i hel2
      simp only [Nat.testBit_mod_two_pow, testBit_bitfield_get] at hel2
      by_cases h2 : i = L.exlevel_ns_shift + L.el2_shift
      · subst h2
        have : L.el2_shift < 8 := by omega
        simp [this, hk] at hel2
        by_cases h8 : L.exlevel_ns_shift + L.el2_shift < 32
        · simp [h8, hel2]
        · simp [h8]
      · by_cases h8 : i < 32
        · simp [h2, h8]
        · simp [h2, h8, h32 h8]

theorem vetm_protect_trcvi_ctlr_lt {L : ETM_TRCVI_CTLR_layout} (hL : L.WF)
    {c : Nat} (hc : c < 2 ^ 32) : vetm_protect_trcvi_ctlr L c < 2 ^ 32 := by
  apply Nat.lt_pow_two_of_testBit
  intro i hi
  rw [testBit_vetm_protect_trcvi_ctlr hL hc]
  obtain ⟨hs, hns, hk, hdis⟩ := hL
  have h1 : ¬ (L.exlevel_s_shift ≤ i ∧ i < L.exlevel_s_shift + 4) := by omega
  rw [if_neg h1]
  split
  · rfl
  · exact testBit_lt32 hc (by omega)

theorem vetm_protect_el2_clear {L : ETM_TRCVI_CTLR_layout} (hL : L.WF)
    {c : Nat} (hc : c < 2 ^ 32) :
    trcvi_ctlr_exlevel_ns_el2 L (vetm_protect_trcvi_ctlr L c) = false := by
  unfold trcvi_ctlr_exlevel_ns_el2
  rw [EXLEVEL_NS_get_el2_eq]
  simp only [ETM_TRCVI_CTLR_EXLEVEL_NS_cast, ETM_TRCVI_CTLR_get_exlevel_ns,
    Nat.testBit_mod_two_pow, testBit_bitfield_get]
  rw [testBit_vetm_protect_trcvi_ctlr hL hc]
  obtain ⟨hs, hns, hk, hdis⟩ := hL
  have h1 : ¬ (L.exlevel_s_shift ≤ L.exlevel_ns_shift + L.el2_shift ∧
      L.exlevel_ns_shift + L.el2_shift < L.exlevel_s_shift + 4) := by omega
  simp [h1, ETM_TRCVI_CTLR_layout.el2_pos]

theorem vetm_protect_exlevel_s {L : ETM_TRCVI_CTLR_layout} (hL : L.WF)
    {c : Nat} (hc : c < 2 ^ 32) :
    ETM_TRCVI_CTLR_get_exlevel_s L (vetm_protect_trcvi_ctlr L c) = 0xf := by
  apply Nat.eq_of_testBit_eq
  intro i
  have e : (0xf : Nat) = 2 ^ 4 - 1 := by decide
  rw [e, Nat.testBit_two_pow_sub_one]
  simp only [ETM_TRCVI_CTLR_get_exlevel_s, testBit_bitfield_get]
  rw [testBit_vetm_protect_trcvi_ctlr hL hc]
  by_cases h : i < 4
  · have h1 : L.exlevel_s_shift ≤ L.exlevel_s_shift + i ∧
        L.exlevel_s_shift + i < L.exlevel_s_shift + 4 := by omega
    simp [h, h1]
  · simp [h]

theorem vetm_protect_idem {L : ETM_TRCVI_CTLR_layout} (hL : L.WF)
    {c : Nat} (hc : c < 2 ^ 32) :
    vetm_protect_trcvi_ctlr L (vetm_protect_trcvi_ctlr L c) = vetm_protect_trcvi_ctlr L c := by
  apply Nat.eq_of_testBit_eq
  intro i
  rw [testBit_vetm_protect_trcvi_ctlr hL (vetm_protect_trcvi_ctlr_lt hL hc),
    testBit_vetm_protect_trcvi_ctlr hL hc]
  split
  · rfl
  · split <;> rfl

/-! ## Properties of `vetm_protect_trcvi_ctlr` -/

/-- C8: for a well-formed layout and every 32-bit TRCVICTLR value, the result
of `vetm_protect_trcvi_ctlr` has the EL2 bit of EXLEVEL_NS clear and EXLEVEL_S
equal to `0xf`, every bit outside the EL2 position and the EXLEVEL_S field
equals the corresponding bit of the input, and applying the function twice is
the same as applying it once. -/
theorem vetm_protect_trcvi_ctlr_spec (L : ETM_TRCVI_CTLR_layout) (hL : L.WF)
    (c : Nat) (hc : c < 2 ^ 32) :
    trcvi_ctlr_exlevel_ns_el2 L (vetm_protect_trcvi_ctlr L c) = false ∧
    (vetm_protect_trcvi_ctlr L c).testBit L.el2_pos = false ∧
    ETM_TRCVI_CTLR_get_exlevel_s L (vetm_protect_trcvi_ctlr L c) = 0xf ∧
    (∀ i, i ≠ L.el2_pos → ¬ (L.exlevel_s_shift ≤ i ∧ i < L.exlevel_s_shift + 4) →
      (vetm_protect_trcvi_ctlr L c).testBit i = c.testBit i) ∧
    vetm_protect_trcvi_ctlr L (vetm_protect_trcvi_ctlr L c) = vetm_protect_trcvi_ctlr L c := by
  refine ⟨vetm_protect_el2_clear hL hc, ?_, vetm_protect_exlevel_s hL hc, ?_,
    vetm_protect_idem hL hc⟩
  · rw [testBit_vetm_protect_trcvi_ctlr hL hc]
    split
    · rename_i h
      obtain ⟨hs, hns, hk, hdis⟩ := hL
      simp only [ETM_TRCVI_CTLR_layout.el2_pos] at h
      omega
    · simp
  · intro i h1 h2
    rw [testBit_vetm_protect_trcvi_ctlr hL hc, if_neg h2, if_neg h1]

/-- Witness for C8 on the ETMv4 layout: on the word `0x00f0ff01`
(EXLEVEL_NS all ones, EXLEVEL_S zero) the result is `0x00bfff01`. -/
theorem vetm_protect_trcvi_ctlr_spec_witness :
    etmv4_layout.WF ∧ (0x00f0ff01 : Nat) < 2 ^ 32 ∧
    vetm_protect_trcvi_ctlr etmv4_layout 0x00f0ff01 = 0x00bfff01 ∧
    trcvi_ctlr_exlevel_ns_el2 etmv4_layout (vetm_protect_trcvi_ctlr etmv4_layout 0x00f0ff01)
      = false :=
  ⟨by decide, by decide, by decide,
    (vetm_protect_trcvi_ctlr_spec etmv4_layout (by decide) 0x00f0ff01 (by decide)).1⟩

/-! ## Access validation -/

theorem vetm_access_allowed_iff (P : etm_platform) (h8 : 8 ≤ P.ETM_SIZE_PERCPU)
    (hlt : P.ETM_SIZE_PERCPU < 2 ^ 64) (size offset : Nat) :
    vetm_access_allowed P size offset = true ↔
      (size = 4 ∨ size = 8) ∧ size ∣ offset ∧ offset + size ≤ P.ETM_SIZE_PERCPU := by
  unfold vetm_access_allowed
  by_cases h4 : size = 4
  · subst h4
    have e : sub64 4 1 = 2 ^ 2 - 1 := by decide
    have e2 : sub64 P.ETM_SIZE_PERCPU 4 = P.ETM_SIZE_PERCPU - 4 := by
      unfold sub64; omega
    rw [e, Nat.and_pow_two_sub_one_eq_mod, e2]
    by_cases hm : offset % 2 ^ 2 = 0
    · simp [hm]; omega
    · simp [hm]; omega
  · by_cases h8 : size = 8
    · subst h8
      have e : sub64 8 1 = 2 ^ 3 - 1 := by decide
      have e2 : sub64 P.ETM_SIZE_PERCPU 8 = P.ETM_SIZE_PERCPU - 8 := by
        unfold sub64; omega
      rw [e, Nat.and_pow_two_sub_one_eq_mod, e2]
      by_cases hm : offset % 2 ^ 3 = 0
      · simp [hm]; omega
      · simp [hm]; omega
    · simp [h4, h8]

theorem vetm_vdevice_write_ret (P : etm_platform) (s : vetm_state)
    (pcpu offset val access_size : Nat) :
    (vetm_vdevice_write P s pcpu offset val access_size).ret = true := rfl

theorem vetm_vdevice_read_ret (cx : cpu_context) (s : vetm_state)
    (pcpu offset val access_size : Nat) :
    (vetm_vdevice_read cx s pcpu offset val access_size).ret = true := rfl

/-- Inside the window the index of the addressed block does not overflow
`cpu_index_t`, and for the block of `pcpu` the offset is computed without
wrapping. -/
theorem vetm_window_arith {P : etm_platform} (hP : P.window_WF) {ipa : Nat}
    (hlo : P.PLATFORM_ETM_BASE ≤ ipa)
    (hhi : ipa < P.PLATFORM_ETM_BASE + P.ETM_STRIDE * P.PLATFORM_MAX_CORES) :
    sub64 ipa P.PLATFORM_ETM_BASE = ipa - P.PLATFORM_ETM_BASE ∧
    (ipa - P.PLATFORM_ETM_BASE) / P.ETM_STRIDE % 2 ^ P.cpu_index_bits =
      (ipa - P.PLATFORM_ETM_BASE) / P.ETM_STRIDE ∧
    vetm_block_offset P ((ipa - P.PLATFORM_ETM_BASE) / P.ETM_STRIDE) ipa =
      ipa - P.PLATFORM_ETM_BASE - (ipa - P.PLATFORM_ETM_BASE) / P.ETM_STRIDE * P.ETM_STRIDE := by
  obtain ⟨hfit, -, -, hcores⟩ := hP
  have h1 : sub64 ipa P.PLATFORM_ETM_BASE = ipa - P.PLATFORM_ETM_BASE := by
    unfold sub64; omega
  have hq : (ipa - P.PLATFORM_ETM_BASE) / P.ETM_STRIDE < P.PLATFORM_MAX_CORES := by
    apply Nat.div_lt_of_lt_mul
    omega
  have hle : (ipa - P.PLATFORM_ETM_BASE) / P.ETM_STRIDE * P.ETM_STRIDE ≤
      ipa - P.PLATFORM_ETM_BASE := Nat.div_mul_le_self _ _
  refine ⟨h1, Nat.mod_eq_of_lt (by omega), ?_⟩
  unfold vetm_block_offset
  rw [h1]
  unfold sub64 u64
  omega

/-- C1: on a platform whose ETM window is well formed (in particular
`ETM_SIZE_PERCPU >= 8`) `vetm_handle_vdevice_access` returns true
exactly when the caller is the primary VCPU of the executing physical CPU, the
address lies in the ETM window, it lies in the block of the executing CPU, the
access size is 4 or 8, the offset in the block is a multiple of the size, and
the access ends inside the per-CPU block. -/
theorem vetm_handle_vdevice_access_ret_iff (P : etm_platform) (hP : P.window_WF)
    (cx : cpu_context) (s : vetm_state) (ipa access_size value : Nat) (is_write : Bool) :
    (vetm_handle_vdevice_access P cx s ipa access_size value is_write).ret = true ↔
      cx.scheduler_get_primary_vcpu cx.cpulocal_get_index = some cx.thread_get_self ∧
      P.PLATFORM_ETM_BASE ≤ ipa ∧
      ipa < P.PLATFORM_ETM_BASE + P.ETM_STRIDE * P.PLATFORM_MAX_CORES ∧
      (ipa - P.PLATFORM_ETM_BASE) / P.ETM_STRIDE = cx.cpulocal_get_index ∧
      (access_size = 4 ∨ access_size = 8) ∧
      access_size ∣ (ipa - P.PLATFORM_ETM_BASE - cx.cpulocal_get_index * P.ETM_STRIDE) ∧
      (ipa - P.PLATFORM_ETM_BASE - cx.cpulocal_get_index * P.ETM_STRIDE) + access_size
        ≤ P.ETM_SIZE_PERCPU := by
  have hP0 := hP
  obtain ⟨hfit, h8, hlt, hcores⟩ := hP
  have hu : u64 (P.PLATFORM_ETM_BASE + P.ETM_STRIDE * P.PLATFORM_MAX_CORES) =
      P.PLATFORM_ETM_BASE + P.ETM_STRIDE * P.PLATFORM_MAX_CORES := Nat.mod_eq_of_lt hfit
  unfold vetm_handle_vdevice_access
  simp only [hu]
  by_cases hprim :
      cx.scheduler_get_primary_vcpu cx.cpulocal_get_index = some cx.thread_get_self
  · by_cases hwin : P.PLATFORM_ETM_BASE ≤ ipa ∧
        ipa < P.PLATFORM_ETM_BASE + P.ETM_STRIDE * P.PLATFORM_MAX_CORES
    · obtain ⟨ha1, ha2, ha3⟩ := vetm_window_arith hP0 hwin.1 hwin.2
      rw [ha1, ha2]
      by_cases hcpu : cx.cpulocal_get_index = (ipa - P.PLATFORM_ETM_BASE) / P.ETM_STRIDE
      · rw [hcpu, ha3]
        by_cases hal : vetm_access_allowed P access_size
            (ipa - P.PLATFORM_ETM_BASE - (ipa - P.PLATFORM_ETM_BASE) / P.ETM_STRIDE * P.ETM_STRIDE)
              = true
        · have hal2 := (vetm_access_allowed_iff P h8 hlt _ _).1 hal
          have hprim2 := hprim
          rw [hcpu] at hprim2
          cases is_write <;>
            simp [hprim2, hwin, hal, vetm_vdevice_write_ret, vetm_vdevice_read_ret, hal2]
        · have hal2 := fun h => hal ((vetm_access_allowed_iff P h8 hlt _ _).2 h)
          have hprim2 := hprim
          rw [hcpu] at hprim2
          simp only [hprim2, hwin, hal]
          simp
          intro h1 h2
          by_contra h3
          exact hal2 ⟨h1, h2, Nat.le_of_not_lt h3⟩
      · have hcpu2 : ¬ (ipa - P.PLATFORM_ETM_BASE) / P.ETM_STRIDE = cx.cpulocal_get_index :=
          fun h => hcpu h.symm
        simp [hprim, hwin, hcpu, hcpu2]
    · simp only [hprim, hwin]
      simp
      intro h1 h2
      exact absurd ⟨h1, h2⟩ hwin
  · simp [hprim]

/-- Witness for C1: on the sample platform a 4-byte write by the primary VCPU
on CPU 2 to offset `0x80` of the block of CPU 2 is accepted. -/
theorem vetm_handle_vdevice_access_ret_iff_witness :
    sample_platform.window_WF ∧
    (vetm_handle_vdevice_access sample_platform sample_context sample_state
      0x6240080 4 0 true).ret = true :=
  ⟨by decide,
    (vetm_handle_vdevice_access_ret_iff sample_platform (by decide) sample_context
      sample_state 0x6240080 4 0 true).2
      ⟨rfl, by decide, by decide, by decide, by decide, by decide, by decide⟩⟩

/-- A rejected access returns with the state and `*value` it was given. -/
theorem vetm_handle_vdevice_access_rejected_state {P : etm_platform} {cx : cpu_context}
    {s : vetm_state} {ipa access_size value : Nat} {is_write : Bool}
    (h : (vetm_handle_vdevice_access P cx s ipa access_size value is_write).ret = false) :
    (vetm_handle_vdevice_access P cx s ipa access_size value is_write).state = s ∧
    (vetm_handle_vdevice_access P cx s ipa access_size value is_write).value = value := by
  unfold vetm_handle_vdevice_access at h ⊢
  simp only at h ⊢
  split at h
  · rename_i h1; simp [h1]
  · rename_i h1
    split at h
    · rename_i h2
      split at h
      · rename_i h3
        cases is_write
        · simp [vetm_vdevice_read] at h
        · simp [vetm_vdevice_write] at h
      · rename_i h3
        simp [h1, h2, h3]
    · rename_i h2
      simp [h1, h2]

/-- C2: whenever `vetm_handle_vdevice_access` returns false, no call has been
made to `etm_set_reg` or `etm_get_reg`, `*value` holds what it held on entry,
and the thread (in particular `vetm_enabled` and `vetm_trcvi_ctlr`) is
unchanged. -/
theorem vetm_handle_vdevice_access_rejected (P : etm_platform) (cx : cpu_context)
    (s : vetm_state) (ipa access_size value : Nat) (is_write : Bool)
    (h : (vetm_handle_vdevice_access P cx s ipa access_size value is_write).ret = false) :
    (vetm_handle_vdevice_access P cx s ipa access_size value is_write).state.etm_calls
      = s.etm_calls ∧
    (vetm_handle_vdevice_access P cx s ipa access_size value is_write).value = value ∧
    (vetm_handle_vdevice_access P cx s ipa access_size value is_write).state.vcpu.vetm_enabled
      = s.vcpu.vetm_enabled ∧
    (vetm_handle_vdevice_access P cx s ipa access_size value is_write).state.vcpu.vetm_trcvi_ctlr
      = s.vcpu.vetm_trcvi_ctlr ∧
    (vetm_handle_vdevice_access P cx s ipa access_size value is_write).state.vcpu = s.vcpu := by
  obtain ⟨h1, h2⟩ := vetm_handle_vdevice_access_rejected_state h
  rw [h1]
  exact ⟨rfl, h2, rfl, rfl, rfl⟩

/-- Witness for C2: a 4-byte write at a misaligned offset (`0x82`) is rejected
and leaves everything as it was. -/
theorem vetm_handle_vdevice_access_rejected_witness :
    (vetm_handle_vdevice_access sample_platform sample_context sample_state
      0x6240082 4 0x55 true).ret = false ∧
    (vetm_handle_vdevice_access sample_platform sample_context sample_state
      0x6240082 4 0x55 true).state.etm_calls = [] ∧
    (vetm_handle_vdevice_access sample_platform sample_context sample_state
      0x6240082 4 0x55 true).value = 0x55 :=
  ⟨by decide,
    (vetm_handle_vdevice_access_rejected sample_platform sample_context sample_state
      0x6240082 4 0x55 true (by decide)).1,
    (vetm_handle_vdevice_access_rejected sample_platform sample_context sample_state
      0x6240082 4 0x55 true (by decide)).2.1⟩

/-! ## Emulation of accepted accesses -/

theorem u32_lt (n : Nat) : u32 n < 2 ^ 32 := Nat.mod_lt _ (by decide)

/-- An accepted access is handed to `vetm_vdevice_write` or `vetm_vdevice_read`
with the offset in the block of the executing CPU. -/
theorem vetm_handle_vdevice_access_accepted {P : etm_platform} {cx : cpu_context}
    {s : vetm_state} {ipa access_size value : Nat} {is_write : Bool}
    (h : (vetm_handle_vdevice_access P cx s ipa access_size value is_write).ret = true) :
    vetm_handle_vdevice_access P cx s ipa access_size value is_write =
      if is_write then
        vetm_vdevice_write P s cx.cpulocal_get_index
          (vetm_block_offset P cx.cpulocal_get_index ipa) value access_size
      else
        vetm_vdevice_read cx s cx.cpulocal_get_index
          (vetm_block_offset P cx.cpulocal_get_index ipa) value access_size := by
  unfold vetm_handle_vdevice_access at h ⊢
  simp only at h ⊢
  split at h
  · simp at h
  · rename_i h1
    split at h
    · rename_i h2
      split at h
      · rename_i h3
        rw [if_neg h1, if_pos h2, if_pos h3]
      · simp at h
    · simp at h

/-- C9: when `trcprgctlr` and `trcvictlr` are distinct registers and the layout
is well formed, `vetm_vdevice_write` returns true and forwards exactly one
`etm_set_reg(pcpu, offset, w, access_size)`, where `w` is `val` unless the
offset is that of `trcvictlr`, in which case `w` is the protected low 32 bits
of `val` (a 32-bit value, so the upper half of a 64-bit write is forwarded as
zero); `vetm_enabled` becomes bit 0 of `val` exactly at the offset of
`trcprgctlr` and is unchanged elsewhere; `vetm_trcvi_ctlr` is unchanged at
every offset other than that of `trcvictlr`; an accepted write is handled by
`vetm_vdevice_write` at the block offset, and an accepted read returns true,
forwards one `etm_get_reg` and changes neither field. -/
theorem vetm_vdevice_write_spec (P : etm_platform) (hP : P.regs_WF) (cx : cpu_context)
    (s : vetm_state) (pcpu offset val access_size : Nat) :
    (vetm_vdevice_write P s pcpu offset val access_size).ret = true ∧
    (vetm_vdevice_write P s pcpu offset val access_size).state.etm_calls =
      s.etm_calls ++
        [etm_call.etm_set_reg pcpu offset
          (if offset = P.offsetof_trcvictlr then vetm_protect_trcvi_ctlr P.layout (u32 val)
            else val) access_size] ∧
    vetm_protect_trcvi_ctlr P.layout (u32 val) < 2 ^ 32 ∧
    (vetm_vdevice_write P s pcpu offset val access_size).state.vcpu.vetm_enabled =
      (if offset = P.offsetof_trcprgctlr then val.testBit 0 else s.vcpu.vetm_enabled) ∧
    (vetm_vdevice_write P s pcpu offset val access_size).state.vcpu.vetm_trcvi_ctlr =
      (if offset = P.offsetof_trcvictlr then vetm_protect_trcvi_ctlr P.layout (u32 val)
        else s.vcpu.vetm_trcvi_ctlr) ∧
    (∀ ipa value,
      (vetm_handle_vdevice_access P cx s ipa access_size value true).ret = true →
      vetm_handle_vdevice_access P cx s ipa access_size value true =
        vetm_vdevice_write P s cx.cpulocal_get_index
          (vetm_block_offset P cx.cpulocal_get_index ipa) value access_size) ∧
    (∀ ipa value,
      (vetm_handle_vdevice_access P cx s ipa access_size value false).ret = true →
      (vetm_handle_vdevice_access P cx s ipa access_size value false).state.vcpu = s.vcpu ∧
      (vetm_handle_vdevice_access P cx s ipa access_size value false).state.etm_calls =
        s.etm_calls ++
          [etm_call.etm_get_reg cx.cpulocal_get_index
            (vetm_block_offset P cx.cpulocal_get_index ipa) access_size]) := by
  obtain ⟨hne, hL⟩ := hP
  have hlt := vetm_protect_trcvi_ctlr_lt hL (u32_lt val)
  have hu : u64 (vetm_protect_trcvi_ctlr P.layout (u32 val)) =
      vetm_protect_trcvi_ctlr P.layout (u32 val) :=
    Nat.mod_eq_of_lt (Nat.lt_of_lt_of_le hlt (by decide))
  have huu : u32 (u32 val) = u32 val := Nat.mod_eq_of_lt (u32_lt val)
  have hbit : (val &&& 1 != 0) = val.testBit 0 := by
    simp [Nat.testBit, Nat.and_comm]
  refine ⟨rfl, ?_, hlt, ?_, ?_, ?_, ?_⟩
  · unfold vetm_vdevice_write
    by_cases h1 : offset = P.offsetof_trcprgctlr
    · have h2 : ¬ offset = P.offsetof_trcvictlr := fun h => hne (h1.symm.trans h)
      simp [h1, hne]
    · by_cases h2 : offset = P.offsetof_trcvictlr
      · simp [h1, h2, ETM_TRCVI_CTLR_cast, ETM_TRCVI_CTLR_raw, huu, hu, Ne.symm hne]
      · simp [h1, h2]
  · unfold vetm_vdevice_write
    by_cases h1 : offset = P.offsetof_trcprgctlr
    · simp only [h1, beq_self_eq_true, if_true]
      exact hbit
    · by_cases h2 : offset = P.offsetof_trcvictlr
      · simp [h1, h2, Ne.symm hne]
      · simp [h1, h2]
  · unfold vetm_vdevice_write
    by_cases h1 : offset = P.offsetof_trcprgctlr
    · have h2 : ¬ offset = P.offsetof_trcvictlr := fun h => hne (h1.symm.trans h)
      simp [h1, hne]
    · by_cases h2 : offset = P.offsetof_trcvictlr
      · simp [h1, h2, ETM_TRCVI_CTLR_cast, huu, Ne.symm hne]
      · simp [h1, h2]
  · intro ipa value h
    rw [vetm_handle_vdevice_access_accepted h]
    simp
  · intro ipa value h
    rw [vetm_handle_vdevice_access_accepted h]
    simp [vetm_vdevice_read]

/-- Witness for C9: a 64-bit write of `0xffffffff00f0ff01` at the offset of
`trcvictlr` forwards the protected 32-bit word `0x00bfff01`. -/
theorem vetm_vdevice_write_spec_witness :
    sample_platform.regs_WF ∧
    (vetm_vdevice_write sample_platform sample_state 2 0x80 0xffffffff00f0ff01 8).state.etm_calls
      = [etm_call.etm_set_reg 2 0x80 0x00bfff01 8] :=
  ⟨by decide,
    (vetm_vdevice_write_spec sample_platform (by decide) sample_context sample_state
      2 0x80 0xffffffff00f0ff01 8).2.1.trans (by decide)⟩

/-! ## The shadow of TRCVICTLR -/

/-- One handled access leaves the shadow as it was or replaces it by a
protected 32-bit word. -/
theorem vetm_handle_vdevice_access_shadow (P : etm_platform) (cx : cpu_context)
    (s : vetm_state) (ipa access_size value : Nat) (is_write : Bool) :
    (vetm_handle_vdevice_access P cx s ipa access_size value is_write).state.vcpu.vetm_trcvi_ctlr
        = s.vcpu.vetm_trcvi_ctlr ∨
      (vetm_handle_vdevice_access P cx s ipa access_size value is_write).state.vcpu.vetm_trcvi_ctlr
        = vetm_protect_trcvi_ctlr P.layout (u32 value) := by
  cases hr : (vetm_handle_vdevice_access P cx s ipa access_size value is_write).ret
  · left; rw [(vetm_handle_vdevice_access_rejected_state hr).1]
  · rw [vetm_handle_vdevice_access_accepted hr]
    cases is_write
    · left; simp [vetm_vdevice_read]
    · simp only [if_true]
      unfold vetm_vdevice_write
      have huu : u32 (u32 value) = u32 value := Nat.mod_eq_of_lt (u32_lt value)
      split_ifs <;> simp [ETM_TRCVI_CTLR_cast, huu]

theorem vetm_run_append (P : etm_platform) (pre post : List vetm_access) (s : vetm_state) :
    vetm_run P (pre ++ post) s = vetm_run P post (vetm_run P pre s) := by
  induction pre generalizing s with
  | nil => rfl
  | cons a rest ih => simp [vetm_run, ih]

/-- A property of the shadow that holds of every protected word is kept by any
sequence of accesses. -/
theorem vetm_run_shadow_invariant (P : etm_platform) (Q : Nat → Prop)
    (hQ : ∀ v, Q (vetm_protect_trcvi_ctlr P.layout (u32 v)))
    (calls : List vetm_access) (s : vetm_state) (h0 : Q s.vcpu.vetm_trcvi_ctlr) :
    Q (vetm_run P calls s).vcpu.vetm_trcvi_ctlr := by
  induction calls generalizing s with
  | nil => exact h0
  | cons a rest ih =>
    apply ih
    rcases vetm_handle_vdevice_access_shadow P a.cx s a.ipa a.access_size a.value a.is_write
      with h | h
    · rw [h]; exact h0
    · rw [h]; exact hQ _

/-- C10: when `trcprgctlr` and `trcvictlr` are distinct registers and the
layout is well formed, from a VCPU whose shadow TRCVICTLR has the
EL2 bit of EXLEVEL_NS clear, after any sequence of `vetm_handle_vdevice_access`
calls the shadow still has that bit clear; `vetm_handle_thread_load_state` then
either calls nothing or makes the single call writing to `trcvictlr` a value
with that bit clear; and if the sequence contains an accepted write at the offset of
`trcvictlr`, the EXLEVEL_S field of the shadow is `0xf` at the end, whatever
follows that write. -/
theorem vetm_shadow_el2_never_set (P : etm_platform) (hP : P.regs_WF) (s : vetm_state)
    (h0 : trcvi_ctlr_exlevel_ns_el2 P.layout s.vcpu.vetm_trcvi_ctlr = false)
    (calls : List vetm_access) :
    trcvi_ctlr_exlevel_ns_el2 P.layout (vetm_run P calls s).vcpu.vetm_trcvi_ctlr = false ∧
    (∀ cx,
      (vetm_handle_thread_load_state P cx (vetm_run P calls s)).etm_calls =
          (vetm_run P calls s).etm_calls ∨
        ∃ v, trcvi_ctlr_exlevel_ns_el2 P.layout v = false ∧
          (vetm_handle_thread_load_state P cx (vetm_run P calls s)).etm_calls =
            (vetm_run P calls s).etm_calls ++
              [etm_call.etm_set_reg cx.cpulocal_get_index P.offsetof_trcvictlr v 4]) ∧
    (∀ pre a post, calls = pre ++ a :: post → a.is_write = true →
      (vetm_handle_vdevice_access P a.cx (vetm_run P pre s) a.ipa a.access_size a.value
        a.is_write).ret = true →
      vetm_block_offset P a.cx.cpulocal_get_index a.ipa = P.offsetof_trcvictlr →
      ETM_TRCVI_CTLR_get_exlevel_s P.layout (vetm_run P calls s).vcpu.vetm_trcvi_ctlr = 0xf) := by
  have hL : P.layout.WF := hP.2
  have hne : P.offsetof_trcprgctlr ≠ P.offsetof_trcvictlr := hP.1
  have hinv := vetm_run_shadow_invariant P
      (fun c => trcvi_ctlr_exlevel_ns_el2 P.layout c = false)
      (fun v => vetm_protect_el2_clear hL (u32_lt v)) calls s h0
  refine ⟨hinv, ?_, ?_⟩
  · intro cx
    unfold vetm_handle_thread_load_state
    simp only [ETM_TRCVI_CTLR_raw]
    split
    · exact Or.inr ⟨_, hinv, rfl⟩
    · left; rfl
  · intro pre a post hcalls hw hacc hoff
    subst hcalls
    rw [vetm_run_append]
    simp only [vetm_run]
    apply vetm_run_shadow_invariant P
      (fun c => ETM_TRCVI_CTLR_get_exlevel_s P.layout c = 0xf)
      (fun v => vetm_protect_exlevel_s hL (u32_lt v))
    rw [vetm_handle_vdevice_access_accepted hacc, hw, hoff]
    have huu : u32 (u32 a.value) = u32 a.value := Nat.mod_eq_of_lt (u32_lt a.value)
    simp [vetm_vdevice_write, Ne.symm hne, ETM_TRCVI_CTLR_cast, huu]
    exact vetm_protect_exlevel_s hL (u32_lt _)

/-- Witness for C10: from the zero shadow, after the accepted write of
`0x00f0ff01` to `trcvictlr` the shadow is `0x00bfff01`, EL2 bit clear. -/
theorem vetm_shadow_el2_never_set_witness :
    sample_platform.regs_WF ∧
    trcvi_ctlr_exlevel_ns_el2 sample_platform.layout sample_state.vcpu.vetm_trcvi_ctlr = false ∧
    (vetm_run sample_platform [sample_access] sample_state).vcpu.vetm_trcvi_ctlr = 0x00bfff01 ∧
    trcvi_ctlr_exlevel_ns_el2 sample_platform.layout
      (vetm_run sample_platform [sample_access] sample_state).vcpu.vetm_trcvi_ctlr = false :=
  ⟨by decide, by decide, by decide,
    (vetm_shadow_el2_never_set sample_platform (by decide) sample_state (by decide)
      [sample_access]).1⟩

/-! ## The SMCCC dispatcher -/

theorem u64_of_lt {n : Nat} (h : n < 2 ^ 64) : u64 n = n := Nat.mod_eq_of_lt h

theorem u32_idem (n : Nat) : u32 (u32 n) = u32 n := Nat.mod_eq_of_lt (u32_lt n)

theorem u64_u32 (n : Nat) : u64 (u32 n) = u32 n :=
  Nat.mod_eq_of_lt (Nat.lt_of_lt_of_le (u32_lt n) (by decide))

theorem u64_idem (n : Nat) : u64 (u64 n) = u64 n :=
  Nat.mod_eq_of_lt (Nat.mod_lt _ (by decide))

/-- What `smccc_handle_call` does, in one equation: it triggers the event
selected by the function identifier on the call marshalled from the registers,
returns its result and stores the four slots into `x0..x3`. -/
theorem smccc_handle_call_eq (A : smccc_abi) (H : smccc_handlers) (is_hvc : Bool)
    (current : thread) (hwf : current.WF) :
    smccc_handle_call A H is_hvc current =
      let ev := smccc_event_of A (u32 (current.vcpu_regs_gpr.x 0))
      let call := smccc_call_spec A is_hvc current.vcpu_regs_gpr.x
      let r := H.trigger ev call
      let w : Nat → Nat := if ev.is_64 then u64 else u32
      { handled := r.handled
        current := current.set_x0_x3 (w r.ret0) (w r.ret1) (w r.ret2) (w r.ret3)
        triggered := [(ev, call)] } := by
  have h0 := u64_of_lt (hwf 0 (by decide))
  have h1 := u64_of_lt (hwf 1 (by decide))
  have h2 := u64_of_lt (hwf 2 (by decide))
  have h3 := u64_of_lt (hwf 3 (by decide))
  have h4 := u64_of_lt (hwf 4 (by decide))
  have h5 := u64_of_lt (hwf 5 (by decide))
  have h6 := u64_of_lt (hwf 6 (by decide))
  unfold smccc_handle_call smccc_call_spec smccc_event_of
  simp only [smccc_function_id_cast, smccc_client_id_cast, u32_idem, u64_u32, h0, h1, h2, h3,
    h4, h5, h6]
  cases hs : A.smccc_function_id_get_is_smc64 (u32 (current.vcpu_regs_gpr.x 0)) <;>
    cases hf : A.smccc_function_id_get_is_fast (u32 (current.vcpu_regs_gpr.x 0)) <;>
    simp [smccc_event.is_64, smccc_handlers.trigger]

/-- C3: an SMC or HVC whose immediate is not zero is not dispatched: the trap
handler returns false, triggers no event and leaves the thread, hence every
guest register, as it was; with a zero immediate the trap handler is exactly
`smccc_handle_call` (with `is_hvc` false for SMC, true for HVC). -/
theorem smccc_handle_vcpu_trap_imm16 (A : smccc_abi) (H : smccc_handlers) (iss : Nat)
    (current : thread) :
    (A.ESR_EL2_ISS_SMC64_get_imm16 iss ≠ 0 →
      (smccc_handle_vcpu_trap_smc64 A H iss current).handled = false ∧
      (smccc_handle_vcpu_trap_smc64 A H iss current).triggered = [] ∧
      (smccc_handle_vcpu_trap_smc64 A H iss current).current = current) ∧
    (A.ESR_EL2_ISS_HVC_get_imm16 iss ≠ 0 →
      (smccc_handle_vcpu_trap_hvc64 A H iss current).handled = false ∧
      (smccc_handle_vcpu_trap_hvc64 A H iss current).triggered = [] ∧
      (smccc_handle_vcpu_trap_hvc64 A H iss current).current = current) ∧
    (A.ESR_EL2_ISS_SMC64_get_imm16 iss = 0 →
      smccc_handle_vcpu_trap_smc64 A H iss current = smccc_handle_call A H false current) ∧
    (A.ESR_EL2_ISS_HVC_get_imm16 iss = 0 →
      smccc_handle_vcpu_trap_hvc64 A H iss current = smccc_handle_call A H true current) := by
  refine ⟨?_, ?_, ?_, ?_⟩
  · intro h; simp [smccc_handle_vcpu_trap_smc64, h]
  · intro h; simp [smccc_handle_vcpu_trap_hvc64, h]
  · intro h; simp [smccc_handle_vcpu_trap_smc64, h]
  · intro h; simp [smccc_handle_vcpu_trap_hvc64, h]

/-- Witness for C3: an HVC with immediate 5 is not dispatched, although the
echo handlers would claim the call. -/
theorem smccc_handle_vcpu_trap_imm16_witness :
    smccc_abi_arm.ESR_EL2_ISS_HVC_get_imm16 5 ≠ 0 ∧
    (smccc_handle_vcpu_trap_hvc64 smccc_abi_arm sample_handlers_echo 5 sample_caller_64).handled
      = false ∧
    (smccc_handle_vcpu_trap_hvc64 smccc_abi_arm sample_handlers_echo 5 sample_caller_64).triggered
      = [] ∧
    (smccc_handle_vcpu_trap_hvc64 smccc_abi_arm sample_handlers_echo 0 sample_caller_64).handled
      = true :=
  ⟨by decide,
    ((smccc_handle_vcpu_trap_imm16 smccc_abi_arm sample_handlers_echo 5 sample_caller_64).2.1
      (by decide)).1,
    ((smccc_handle_vcpu_trap_imm16 smccc_abi_arm sample_handlers_echo 5 sample_caller_64).2.1
      (by decide)).2.1,
    by decide⟩

/-- C4: for every well-typed register file `smccc_handle_call` triggers exactly
one event, the one selected by the `is_smc64` and `is_fast` bits of the
function identifier in the low 32 bits of `x0`; the event is given the
interface id and function number of that identifier, the `is_hvc` flag,
`x1..x6` (in full for the 64-bit classes, their low 32 bits for the 32-bit
classes) and the client id from the low 32 bits of `x7`; the flag returned is
the one the event returned; and `is_hvc` is true from the HVC trap handler and
false from the SMC trap handler. -/
theorem smccc_handle_call_dispatch (A : smccc_abi) (H : smccc_handlers) (is_hvc : Bool)
    (current : thread) (hwf : current.WF) :
    (smccc_handle_call A H is_hvc current).triggered =
      [(smccc_event_of A (u32 (current.vcpu_regs_gpr.x 0)),
        smccc_call_spec A is_hvc current.vcpu_regs_gpr.x)] ∧
    (smccc_handle_call A H is_hvc current).handled =
      (H.trigger (smccc_event_of A (u32 (current.vcpu_regs_gpr.x 0)))
        (smccc_call_spec A is_hvc current.vcpu_regs_gpr.x)).handled ∧
    (∀ iss, A.ESR_EL2_ISS_HVC_get_imm16 iss = 0 →
      (smccc_handle_vcpu_trap_hvc64 A H iss current).triggered =
        [(smccc_event_of A (u32 (current.vcpu_regs_gpr.x 0)),
          smccc_call_spec A true current.vcpu_regs_gpr.x)]) ∧
    (∀ iss, A.ESR_EL2_ISS_SMC64_get_imm16 iss = 0 →
      (smccc_handle_vcpu_trap_smc64 A H iss current).triggered =
        [(smccc_event_of A (u32 (current.vcpu_regs_gpr.x 0)),
          smccc_call_spec A false current.vcpu_regs_gpr.x)]) := by
  refine ⟨?_, ?_, ?_, ?_⟩
  · rw [smccc_handle_call_eq A H is_hvc current hwf]
  · rw [smccc_handle_call_eq A H is_hvc current hwf]
  · intro iss h
    simp only [smccc_handle_vcpu_trap_hvc64, h, if_true]
    rw [smccc_handle_call_eq A H true current hwf]
  · intro iss h
    simp only [smccc_handle_vcpu_trap_smc64, h, if_true]
    rw [smccc_handle_call_eq A H false current hwf]

/-- Witness for C4: the fast 64-bit call `0xC4000001` made by HVC triggers
`fast_64` once, with interface 4, function 1 and `x1` in full. -/
theorem smccc_handle_call_dispatch_witness :
    sample_caller_64.WF ∧
    (smccc_handle_call smccc_abi_arm sample_handlers_echo true sample_caller_64).triggered =
      [(smccc_event.fast_64,
        { interface_id := 4, function := 1, is_hvc := true, arg1 := 0x100000005, arg2 := 2,
          arg3 := 3, arg4 := 4, arg5 := 5, arg6 := 6, client_id := 7, ret0 := 0xC4000001,
          ret1 := 0x100000005, ret2 := 2, ret3 := 3 })] :=
  ⟨by decide,
    (smccc_handle_call_dispatch smccc_abi_arm sample_handlers_echo true sample_caller_64
      (by decide)).1.trans (by decide)⟩

theorem thread_set_x0_x3_high (current : thread) (r0 r1 r2 r3 i : Nat) (hi : 4 ≤ i) :
    (current.set_x0_x3 r0 r1 r2 r3).vcpu_regs_gpr.x i = current.vcpu_regs_gpr.x i := by
  have h0 : i ≠ 0 := by omega
  have h1 : i ≠ 1 := by omega
  have h2 : i ≠ 2 := by omega
  have h3 : i ≠ 3 := by omega
  simp [thread.set_x0_x3, h0, h1, h2, h3]

/-- C5: for every well-typed register file, the four return slots given to the
triggered event are initialised from `x0..x3` (in full for the 64-bit classes,
their low 32 bits for the 32-bit classes); after `smccc_handle_call`, `x0..x3`
hold the slots as the event left them (a 64-bit slot as it is, a 32-bit slot
zero-extended), every register from `x4` on holds what it held before, and the
other fields of the thread are unchanged. -/
theorem smccc_handle_call_return_slots (A : smccc_abi) (H : smccc_handlers) (is_hvc : Bool)
    (current : thread) (hwf : current.WF) :
    (smccc_call_spec A is_hvc current.vcpu_regs_gpr.x).ret0 =
      (if (smccc_event_of A (u32 (current.vcpu_regs_gpr.x 0))).is_64
        then current.vcpu_regs_gpr.x 0 else u32 (current.vcpu_regs_gpr.x 0)) ∧
    (smccc_call_spec A is_hvc current.vcpu_regs_gpr.x).ret1 =
      (if (smccc_event_of A (u32 (current.vcpu_regs_gpr.x 0))).is_64
        then current.vcpu_regs_gpr.x 1 else u32 (current.vcpu_regs_gpr.x 1)) ∧
    (smccc_call_spec A is_hvc current.vcpu_regs_gpr.x).ret2 =
      (if (smccc_event_of A (u32 (current.vcpu_regs_gpr.x 0))).is_64
        then current.vcpu_regs_gpr.x 2 else u32 (current.vcpu_regs_gpr.x 2)) ∧
    (smccc_call_spec A is_hvc current.vcpu_regs_gpr.x).ret3 =
      (if (smccc_event_of A (u32 (current.vcpu_regs_gpr.x 0))).is_64
        then current.vcpu_regs_gpr.x 3 else u32 (current.vcpu_regs_gpr.x 3)) ∧
    (smccc_handle_call A H is_hvc current).current.vcpu_regs_gpr.x 0 =
      (if (smccc_event_of A (u32 (current.vcpu_regs_gpr.x 0))).is_64 then u64 else u32)
        (H.trigger (smccc_event_of A (u32 (current.vcpu_regs_gpr.x 0)))
          (smccc_call_spec A is_hvc current.vcpu_regs_gpr.x)).ret0 ∧
    (smccc_handle_call A H is_hvc current).current.vcpu_regs_gpr.x 1 =
      (if (smccc_event_of A (u32 (current.vcpu_regs_gpr.x 0))).is_64 then u64 else u32)
        (H.trigger (smccc_event_of A (u32 (current.vcpu_regs_gpr.x 0)))
          (smccc_call_spec A is_hvc current.vcpu_regs_gpr.x)).ret1 ∧
    (smccc_handle_call A H is_hvc current).current.vcpu_regs_gpr.x 2 =
      (if (smccc_event_of A (u32 (current.vcpu_regs_gpr.x 0))).is_64 then u64 else u32)
        (H.trigger (smccc_event_of A (u32 (current.vcpu_regs_gpr.x 0)))
          (smccc_call_spec A is_hvc current.vcpu_regs_gpr.x)).ret2 ∧
    (smccc_handle_call A H is_hvc current).current.vcpu_regs_gpr.x 3 =
      (if (smccc_event_of A (u32 (current.vcpu_regs_gpr.x 0))).is_64 then u64 else u32)
        (H.trigger (smccc_event_of A (u32 (current.vcpu_regs_gpr.x 0)))
          (smccc_call_spec A is_hvc current.vcpu_regs_gpr.x)).ret3 ∧
    (∀ i, 4 ≤ i →
      (smccc_handle_call A H is_hvc current).current.vcpu_regs_gpr.x i =
        current.vcpu_regs_gpr.x i) ∧
    (smccc_handle_call A H is_hvc current).current.vetm_enabled = current.vetm_enabled ∧
    (smccc_handle_call A H is_hvc current).current.vetm_trcvi_ctlr = current.vetm_trcvi_ctlr := by
  rw [smccc_handle_call_eq A H is_hvc current hwf]
  refine ⟨?_, ?_, ?_, ?_, ?_, ?_, ?_, ?_, ?_, ?_, ?_⟩
  · unfold smccc_call_spec; simp only; split <;> rfl
  · unfold smccc_call_spec; simp only; split <;> rfl
  · unfold smccc_call_spec; simp only; split <;> rfl
  · unfold smccc_call_spec; simp only; split <;> rfl
  · simp [thread.set_x0_x3]
  · simp [thread.set_x0_x3]
  · simp [thread.set_x0_x3]
  · simp [thread.set_x0_x3]
  · intro i hi
    exact thread_set_x0_x3_high _ _ _ _ _ i hi
  · rfl
  · rfl

/-- Witness for C5: after the claimed fast 64-bit call of `sample_caller_64`,
`x0..x3` hold the answer of the echo handlers and `x4` is untouched. -/
theorem smccc_handle_call_return_slots_witness :
    sample_caller_64.WF ∧
    (smccc_handle_call smccc_abi_arm sample_handlers_echo true
      sample_caller_64).current.vcpu_regs_gpr.x 1 = 0x100000005 ∧
    (smccc_handle_call smccc_abi_arm sample_handlers_echo true
      sample_caller_64).current.vcpu_regs_gpr.x 3 = 7 ∧
    (smccc_handle_call smccc_abi_arm sample_handlers_echo true
      sample_caller_64).current.vcpu_regs_gpr.x 4 = 4 :=
  ⟨by decide, by decide, by decide,
    ((smccc_handle_call_return_slots smccc_abi_arm sample_handlers_echo true sample_caller_64
      (by decide)).2.2.2.2.2.2.2.2.1 4 (by decide)).trans (by decide)⟩

/-- Counterexample to C6 as stated: the yielding 32-bit call `0x04000001` made by
HVC with bit 32 set in `x0` and `x1`; the triggered event returns false and
leaves the four slots as it found them, the dispatcher returns false, and yet
`x0` and `x1` have lost bit 32. -/
theorem smccc_unclaimed_call_counterexample :
    sample_caller_32.WF ∧
    (∀ p ∈ (smccc_handle_vcpu_trap_hvc64 smccc_abi_arm sample_handlers_unclaimed 0
        sample_caller_32).triggered,
      smccc_unclaimed p.2 (sample_handlers_unclaimed.trigger p.1 p.2)) ∧
    (smccc_handle_vcpu_trap_hvc64 smccc_abi_arm sample_handlers_unclaimed 0
      sample_caller_32).triggered ≠ [] ∧
    (smccc_handle_vcpu_trap_hvc64 smccc_abi_arm sample_handlers_unclaimed 0
      sample_caller_32).handled = false ∧
    sample_caller_32.vcpu_regs_gpr.x 0 = 0x104000001 ∧
    (smccc_handle_vcpu_trap_hvc64 smccc_abi_arm sample_handlers_unclaimed 0
      sample_caller_32).current.vcpu_regs_gpr.x 0 = 0x04000001 ∧
    sample_caller_32.vcpu_regs_gpr.x 1 = 0x100000005 ∧
    (smccc_handle_vcpu_trap_hvc64 smccc_abi_arm sample_handlers_unclaimed 0
      sample_caller_32).current.vcpu_regs_gpr.x 1 = 5 := by
  refine ⟨by decide, ?_, by decide, by decide, by decide, by decide, by decide, by decide⟩
  decide

/-- C6 (amended): for every well-typed register file and either trap kind, if
the triggered event returns false and leaves the four return slots as it found
them, then `smccc_handle_call` returns false and every register from `x4` on is
unchanged; in the two 64-bit classes `x0..x3` are unchanged as well, so that
the whole thread is as before; in the two 32-bit classes each of `x0..x3` holds
its previous low 32 bits, zero-extended, so it is unchanged when its upper 32
bits were zero. -/
theorem smccc_unclaimed_call_frame (A : smccc_abi) (H : smccc_handlers) (is_hvc : Bool)
    (current : thread) (hwf : current.WF)
    (hun : ∀ p ∈ (smccc_handle_call A H is_hvc current).triggered,
      smccc_unclaimed p.2 (H.trigger p.1 p.2)) :
    (smccc_handle_call A H is_hvc current).handled = false ∧
    (∀ i, 4 ≤ i →
      (smccc_handle_call A H is_hvc current).current.vcpu_regs_gpr.x i =
        current.vcpu_regs_gpr.x i) ∧
    ((smccc_event_of A (u32 (current.vcpu_regs_gpr.x 0))).is_64 = true →
      ∀ i, i < 31 → (smccc_handle_call A H is_hvc current).current.vcpu_regs_gpr.x i =
        current.vcpu_regs_gpr.x i) ∧
    ((smccc_event_of A (u32 (current.vcpu_regs_gpr.x 0))).is_64 = false →
      ∀ i, i < 4 → (smccc_handle_call A H is_hvc current).current.vcpu_regs_gpr.x i =
        u32 (current.vcpu_regs_gpr.x i)) ∧
    (∀ i, i < 4 → current.vcpu_regs_gpr.x i < 2 ^ 32 →
      (smccc_handle_call A H is_hvc current).current.vcpu_regs_gpr.x i =
        current.vcpu_regs_gpr.x i) := by
  rw [smccc_handle_call_eq A H is_hvc current hwf] at hun ⊢
  simp only [List.mem_singleton, forall_eq] at hun
  obtain ⟨hh, e0, e1, e2, e3⟩ := hun
  have hhigh : ∀ i, 4 ≤ i → ∀ r0 r1 r2 r3,
      (current.set_x0_x3 r0 r1 r2 r3).vcpu_regs_gpr.x i = current.vcpu_regs_gpr.x i :=
    fun i hi r0 r1 r2 r3 => thread_set_x0_x3_high current r0 r1 r2 r3 i hi
  have hlow : ∀ i, i < 4 → i = 0 ∨ i = 1 ∨ i = 2 ∨ i = 3 := by intro i hi; omega
  simp only [e0, e1, e2, e3]
  refine ⟨hh, fun i hi => hhigh i hi _ _ _ _, ?_, ?_, ?_⟩
  · intro h64 i hi
    by_cases h4 : 4 ≤ i
    · exact hhigh i h4 _ _ _ _
    · have hx := u64_of_lt (hwf i hi)
      rcases hlow i (by omega) with h | h | h | h <;> subst h <;>
        simp [thread.set_x0_x3, smccc_call_spec, h64] <;> exact hx
  · intro h32 i hi
    rcases hlow i hi with h | h | h | h <;> subst h <;>
      simp [thread.set_x0_x3, smccc_call_spec, h32, u32_idem]
  · intro i hi hsmall
    have hx32 : u32 (current.vcpu_regs_gpr.x i) = current.vcpu_regs_gpr.x i :=
      Nat.mod_eq_of_lt hsmall
    have hx64 := u64_of_lt (hwf i (by omega))
    cases h64 : (smccc_event_of A (u32 (current.vcpu_regs_gpr.x 0))).is_64
    · rcases hlow i hi with h | h | h | h <;> subst h <;>
        simp [thread.set_x0_x3, smccc_call_spec, h64, u32_idem] <;> exact hx32
    · rcases hlow i hi with h | h | h | h <;> subst h <;>
        simp [thread.set_x0_x3, smccc_call_spec, h64] <;> exact hx64

/-- Witness for C6 (amended): the fast 64-bit call of `sample_caller_64`, left
unclaimed, returns false with `x1` (which has bit 32 set) unchanged. -/
theorem smccc_unclaimed_call_frame_witness :
    sample_caller_64.WF ∧
    (∀ p ∈ (smccc_handle_call smccc_abi_arm sample_handlers_unclaimed false
        sample_caller_64).triggered,
      smccc_unclaimed p.2 (sample_handlers_unclaimed.trigger p.1 p.2)) ∧
    (smccc_handle_call smccc_abi_arm sample_handlers_unclaimed false sample_caller_64).handled
      = false ∧
    (smccc_handle_call smccc_abi_arm sample_handlers_unclaimed false
      sample_caller_64).current.vcpu_regs_gpr.x 1 = 0x100000005 :=
  ⟨by decide, by decide,
    (smccc_unclaimed_call_frame smccc_abi_arm sample_handlers_unclaimed false sample_caller_64
      (by decide) (by decide)).1,
    ((smccc_unclaimed_call_frame smccc_abi_arm sample_handlers_unclaimed false sample_caller_64
      (by decide) (by decide)).2.2.1 (by decide) 1 (by decide)).trans (by decide)⟩

/-! ## The binding protocol -/

theorem vic_consistent_init : vic_consistent vic_tables.init := by
  constructor
  · intro c v s h; simp [vic_tables.init] at h
  · intro s c v h; simp [bound_shared, vic_tables.init] at h

theorem vic_bind_shared_consistent (R : vic_ranges) (σ : vic_tables) (s c v t : Nat)
    (h : vic_consistent σ) : vic_consistent (vic_bind_shared R σ s c v t).2 := by
  unfold vic_bind_shared
  split
  · exact h
  · split
    · exact h
    · split
      · exact h
      · rename_i hst _ hfree
        have hst2 : (σ.source s).state = .UNBOUND := by simpa using hst
        have hnone : σ.shared_table c v = none := by
          cases hq : σ.shared_table c v with
          | none => rfl
          | some q => simp [hq] at hfree
        obtain ⟨hA, hB⟩ := h
        constructor
        · intro c1 v1 s1 hs
          simp only [vic_tables.set_source, vic_tables.set_shared] at hs
          by_cases hcv : c1 = c ∧ v1 = v
          · rw [if_pos hcv] at hs
            obtain ⟨rfl, rfl⟩ := hcv
            have : s = s1 := by simpa using hs
            subst this
            simp [bound_shared, vic_tables.set_source]
          · rw [if_neg hcv] at hs
            have hb := hA c1 v1 s1 hs
            have hne : s1 ≠ s := by
              intro e; subst e
              have := hb.1
              rw [hst2] at this
              exact absurd this (by decide)
            simpa [bound_shared, vic_tables.set_source, vic_tables.set_shared, hne] using hb
        · intro s1 c1 v1 hb
          by_cases hs : s1 = s
          · subst hs
            simp [bound_shared, vic_tables.set_source] at hb
            obtain ⟨rfl, rfl⟩ := hb
            simp [vic_tables.set_source, vic_tables.set_shared]
          · have hb2 : bound_shared σ s1 c1 v1 := by
              simpa [bound_shared, vic_tables.set_source, vic_tables.set_shared, hs] using hb
            have hsl := hB s1 c1 v1 hb2
            have hcv : ¬ (c1 = c ∧ v1 = v) := by
              rintro ⟨rfl, rfl⟩
              rw [hnone] at hsl
              exact absurd hsl (by simp)
            simp only [vic_tables.set_source, vic_tables.set_shared]
            rw [if_neg hcv]
            exact hsl

/-- Consistency only depends on the shared table and on which sources are
bound to which shared slot. -/
theorem vic_consistent_of_same (σ σ1 : vic_tables)
    (hT : σ1.shared_table = σ.shared_table)
    (hS : ∀ s c v, bound_shared σ1 s c v ↔ bound_shared σ s c v)
    (h : vic_consistent σ) : vic_consistent σ1 := by
  obtain ⟨hA, hB⟩ := h
  constructor
  · intro c v s hs
    rw [hT] at hs
    exact (hS s c v).2 (hA c v s hs)
  · intro s c v hb
    rw [hT]
    exact hB s c v ((hS s c v).1 hb)

/-- Replacing the record of one source by a record that is bound to the same
shared slots as before keeps the binding relation. -/
theorem bound_shared_set_source (σ : vic_tables) (s : Nat) (r : virq_source_t)
    (hr : ∀ c v, (r.state = .BOUND ∧ r.routing = .shared ∧ r.target = c ∧ r.virq = v) ↔
      bound_shared σ s c v) (s1 c v : Nat) :
    bound_shared (σ.set_source s r) s1 c v ↔ bound_shared σ s1 c v := by
  by_cases hs : s1 = s
  · subst hs
    rw [← hr c v]
    simp [bound_shared, vic_tables.set_source]
  · simp [bound_shared, vic_tables.set_source, hs]

theorem vic_bind_private_vcpu_consistent (R : vic_ranges) (σ : vic_tables) (s c v t : Nat)
    (h : vic_consistent σ) : vic_consistent (vic_bind_private_vcpu R σ s c v t).2 := by
  unfold vic_bind_private_vcpu
  split
  · exact h
  · split
    · exact h
    · split
      · exact h
      · rename_i hst _ _
        have hst2 : (σ.source s).state = .UNBOUND := by simpa using hst
        refine vic_consistent_of_same σ _ rfl ?_ h
        intro s1 c1 v1
        have key := bound_shared_set_source (σ.set_private c v (some s)) s
          { state := .BOUND, routing := .private_vcpu, target := c, virq := v,
            trigger := t, pending := false }
          (by
            intro c2 v2
            simp [bound_shared, vic_tables.set_private, hst2]) s1 c1 v1
        rw [key]
        simp [bound_shared, vic_tables.set_private]

theorem virq_assert_consistent (σ : vic_tables) (s : Nat) (h : vic_consistent σ) :
    vic_consistent (virq_assert σ s) := by
  unfold virq_assert
  simp only
  split
  · refine vic_consistent_of_same σ _ rfl ?_ h
    intro s1 c1 v1
    exact bound_shared_set_source σ s _ (by intro c2 v2; simp [bound_shared]) s1 c1 v1
  · exact h

theorem virq_clear_consistent (σ : vic_tables) (s : Nat) (h : vic_consistent σ) :
    vic_consistent (virq_clear σ s) := by
  unfold virq_clear
  simp only
  split
  · refine vic_consistent_of_same σ _ rfl ?_ h
    intro s1 c1 v1
    exact bound_shared_set_source σ s _ (by intro c2 v2; simp [bound_shared]) s1 c1 v1
  · exact h

theorem vic_unbind_not_bound (σ : vic_tables) (s : Nat) :
    ((vic_unbind σ s).source s).state ≠ .BOUND := by
  unfold vic_unbind
  simp only
  split
  · simp [vic_tables.set_source]
  · assumption

theorem vic_unbind_consistent (σ : vic_tables) (s : Nat) (h : vic_consistent σ) :
    vic_consistent (vic_unbind σ s) := by
  unfold vic_unbind
  simp only
  split
  · rename_i hb
    cases hr : (σ.source s).routing with
    | private_vcpu =>
      simp only
      refine vic_consistent_of_same σ _ rfl ?_ h
      intro s1 c1 v1
      refine (bound_shared_set_source _ s _ ?_ s1 c1 v1).trans ?_
      · intro c2 v2; simp [bound_shared, vic_tables.set_private, hr]
      · simp [bound_shared, vic_tables.set_private]
    | shared =>
      simp only
      obtain ⟨hA, hB⟩ := h
      have hself : bound_shared σ s (σ.source s).target (σ.source s).virq := ⟨hb, hr, rfl, rfl⟩
      have hslot := hB _ _ _ hself
      constructor
      · intro c1 v1 s1 hs
        simp only [vic_tables.set_source, vic_tables.set_shared] at hs
        by_cases hcv : c1 = (σ.source s).target ∧ v1 = (σ.source s).virq
        · rw [if_pos hcv] at hs
          exact absurd hs (by simp)
        · rw [if_neg hcv] at hs
          have hb1 := hA c1 v1 s1 hs
          have hne : s1 ≠ s := by
            intro e; subst e
            exact hcv ⟨hb1.2.2.1.symm, hb1.2.2.2.symm⟩
          simpa [bound_shared, vic_tables.set_source, vic_tables.set_shared, hne] using hb1
      · intro s1 c1 v1 hb1
        by_cases hs : s1 = s
        · subst hs
          simp [bound_shared, vic_tables.set_source] at hb1
        · have hb2 : bound_shared σ s1 c1 v1 := by
            simpa [bound_shared, vic_tables.set_source, vic_tables.set_shared, hs] using hb1
          have hsl := hB s1 c1 v1 hb2
          have hcv : ¬ (c1 = (σ.source s).target ∧ v1 = (σ.source s).virq) := by
            rintro ⟨e1, e2⟩
            rw [e1, e2, hslot] at hsl
            exact hs (by simpa using hsl.symm)
          simp only [vic_tables.set_source, vic_tables.set_shared]
          rw [if_neg hcv]
          exact hsl
  · exact h

theorem vic_unbind_sync_consistent (σ : vic_tables) (s : Nat) (h : vic_consistent σ) :
    vic_consistent (vic_unbind_sync σ s) := by
  unfold vic_unbind_sync
  simp only
  have hnb := vic_unbind_not_bound σ s
  refine vic_consistent_of_same (vic_unbind σ s) _ rfl ?_ (vic_unbind_consistent σ s h)
  intro s1 c1 v1
  exact bound_shared_set_source (vic_unbind σ s) s _
    (by intro c2 v2; simp [bound_shared, hnb]) s1 c1 v1

theorem vic_step_consistent (R : vic_ranges) (σ : vic_tables) (op : vic_op)
    (h : vic_consistent σ) : vic_consistent (vic_step R σ op) := by
  cases op with
  | bind_shared s c v t => exact vic_bind_shared_consistent R σ s c v t h
  | bind_private_vcpu s c v t => exact vic_bind_private_vcpu_consistent R σ s c v t h
  | unbind s => exact vic_unbind_consistent σ s h
  | unbind_sync s => exact vic_unbind_sync_consistent σ s h
  | assert s => exact virq_assert_consistent σ s h
  | clear s => exact virq_clear_consistent σ s h

theorem vic_run_consistent (R : vic_ranges) (ops : List vic_op) (σ : vic_tables)
    (h : vic_consistent σ) : vic_consistent (vic_run R ops σ) := by
  induction ops generalizing σ with
  | nil => exact h
  | cons op rest ih => exact ih _ (vic_step_consistent R σ op h)

theorem vic_unbind_keeps_slot (σ : vic_tables) (h : vic_consistent σ) (s s1 c v : Nat)
    (hslot : σ.shared_table c v = some s1) (hne : s ≠ s1) :
    (vic_unbind σ s).shared_table c v = some s1 := by
  unfold vic_unbind
  simp only
  split
  · rename_i hb
    cases hr : (σ.source s).routing with
    | private_vcpu => simpa [vic_tables.set_source, vic_tables.set_private] using hslot
    | shared =>
      have hself : bound_shared σ s (σ.source s).target (σ.source s).virq := ⟨hb, hr, rfl, rfl⟩
      have hs := h.2 _ _ _ hself
      have hcv : ¬ (c = (σ.source s).target ∧ v = (σ.source s).virq) := by
        rintro ⟨e1, e2⟩
        rw [← e1, ← e2, hslot] at hs
        exact hne (by simpa using hs.symm)
      simp only [vic_tables.set_source, vic_tables.set_shared]
      rw [if_neg hcv]
      exact hslot
  · exact hslot

/-- A claimed slot keeps its occupant through every call that does not release
the occupant. -/
theorem vic_step_keeps_slot (R : vic_ranges) (σ : vic_tables) (h : vic_consistent σ)
    (op : vic_op) (s1 c v : Nat) (hslot : σ.shared_table c v = some s1)
    (hop : op.releases s1 = false) :
    (vic_step R σ op).shared_table c v = some s1 := by
  cases op with
  | bind_shared s c1 v1 t =>
    simp only [vic_step, vic_bind_shared]
    split
    · exact hslot
    · split
      · exact hslot
      · split
        · exact hslot
        · rename_i hfree
          have hcv : ¬ (c = c1 ∧ v = v1) := by
            rintro ⟨e1, e2⟩
            rw [← e1, ← e2, hslot] at hfree
            simp at hfree
          simp only [vic_tables.set_source, vic_tables.set_shared]
          rw [if_neg hcv]
          exact hslot
  | bind_private_vcpu s c1 v1 t =>
    simp only [vic_step, vic_bind_private_vcpu]
    split
    · exact hslot
    · split
      · exact hslot
      · split
        · exact hslot
        · simpa [vic_tables.set_source, vic_tables.set_private] using hslot
  | unbind s =>
    have hne : s ≠ s1 := by simpa [vic_op.releases] using hop
    exact vic_unbind_keeps_slot σ h s s1 c v hslot hne
  | unbind_sync s =>
    have hne : s ≠ s1 := by simpa [vic_op.releases] using hop
    simp only [vic_step, vic_unbind_sync, vic_tables.set_source]
    exact vic_unbind_keeps_slot σ h s s1 c v hslot hne
  | assert s =>
    simp only [vic_step, virq_assert]
    split
    · simpa [vic_tables.set_source] using hslot
    · exact hslot
  | clear s =>
    simp only [vic_step, virq_clear]
    split
    · simpa [vic_tables.set_source] using hslot
    · exact hslot

theorem vic_run_keeps_slot (R : vic_ranges) (ops : List vic_op) (σ : vic_tables)
    (h : vic_consistent σ) (s1 c v : Nat) (hslot : σ.shared_table c v = some s1)
    (hops : ∀ op ∈ ops, op.releases s1 = false) :
    (vic_run R ops σ).shared_table c v = some s1 := by
  induction ops generalizing σ with
  | nil => exact hslot
  | cons op rest ih =>
    simp only [vic_run]
    apply ih _ (vic_step_consistent R σ op h)
    · exact vic_step_keeps_slot R σ h op s1 c v hslot (hops op (List.mem_cons_self _ _))
    · intro op1 h1
      exact hops op1 (List.mem_cons_of_mem _ h1)

/-- What a successful `vic_bind_shared` means: the source was `UNBOUND`, the VIRQ
is in the shared range, the slot was free and now holds the source. -/
theorem vic_bind_shared_ok {R : vic_ranges} {σ : vic_tables} {s c v t : Nat}
    (h : (vic_bind_shared R σ s c v t).1 = .OK) :
    (σ.source s).state = .UNBOUND ∧ R.shared_range v = true ∧ σ.shared_table c v = none ∧
      (vic_bind_shared R σ s c v t).2.shared_table c v = some s ∧
      bound_shared (vic_bind_shared R σ s c v t).2 s c v := by
  unfold vic_bind_shared at h ⊢
  split at h
  · exact absurd h (by simp)
  · split at h
    · exact absurd h (by simp)
    · split at h
      · exact absurd h (by simp)
      · rename_i h1 h2 h3
        rw [if_neg h1, if_neg h2, if_neg h3]
        refine ⟨by simpa using h1, by simpa using h2, ?_, ?_, ?_⟩
        · cases hq : σ.shared_table c v with
          | none => rfl
          | some q => simp [hq] at h3
        · simp [vic_tables.set_source, vic_tables.set_shared]
        · simp [bound_shared, vic_tables.set_source]

/-- A bind on a slot that is already claimed does not succeed and changes
nothing; from an `UNBOUND` source and a VIRQ in range it returns `BUSY`. -/
theorem vic_bind_shared_claimed (R : vic_ranges) (σ : vic_tables) (s s1 c v t : Nat)
    (hslot : σ.shared_table c v = some s1) :
    (vic_bind_shared R σ s c v t).1 ≠ .OK ∧ (vic_bind_shared R σ s c v t).2 = σ ∧
      ((σ.source s).state = .UNBOUND → R.shared_range v = true →
        (vic_bind_shared R σ s c v t).1 = .ERROR_BUSY) := by
  unfold vic_bind_shared
  split
  · rename_i h1
    exact ⟨by simp, rfl, fun h => absurd h h1⟩
  · split
    · rename_i h2
      refine ⟨by simp, rfl, fun _ h => ?_⟩
      rw [h] at h2
      exact absurd h2 (by decide)
    · split
      · exact ⟨by simp, rfl, fun _ _ => rfl⟩
      · rename_i h3
        rw [hslot] at h3
        simp at h3

/-- A bind by a source that is not `UNBOUND` returns `ERROR_VIRQ_BOUND`, whatever
the slot holds. -/
theorem vic_bind_shared_not_unbound (R : vic_ranges) (σ : vic_tables) (s c v t : Nat)
    (h : (σ.source s).state ≠ .UNBOUND) :
    (vic_bind_shared R σ s c v t).1 = .ERROR_VIRQ_BOUND := by
  unfold vic_bind_shared
  rw [if_pos h]

/-- Counterexample to C7 as stated: source 1 has claimed VIRQ 5 of controller
0 and is not unbound, source 2 (a different source) has claimed VIRQ 6; the
bind of source 2 on VIRQ 5 then returns `ERROR_VIRQ_BOUND`, not `ERROR_BUSY`. -/
theorem vic_bind_shared_busy_counterexample :
    (vic_bind_shared sample_ranges vic_tables.init 1 0 5 0).1 = .OK ∧
    (vic_bind_shared sample_ranges
      (vic_bind_shared sample_ranges vic_tables.init 1 0 5 0).2 2 0 6 0).1 = .OK ∧
    (2 : Nat) ≠ 1 ∧
    (∀ op ∈ [vic_op.bind_shared 2 0 6 0], op.releases 1 = false) ∧
    bound_shared
      (vic_run sample_ranges [vic_op.bind_shared 2 0 6 0]
        (vic_bind_shared sample_ranges vic_tables.init 1 0 5 0).2) 1 0 5 ∧
    (vic_bind_shared sample_ranges
      (vic_run sample_ranges [vic_op.bind_shared 2 0 6 0]
        (vic_bind_shared sample_ranges vic_tables.init 1 0 5 0).2) 2 0 5 0).1
      = .ERROR_VIRQ_BOUND ∧
    (vic_bind_shared sample_ranges
      (vic_run sample_ranges [vic_op.bind_shared 2 0 6 0]
        (vic_bind_shared sample_ranges vic_tables.init 1 0 5 0).2) 2 0 5 0).1
      ≠ .ERROR_BUSY := by
  refine ⟨by decide, by decide, by decide, by decide, by decide, by decide, by decide⟩

/-- C7 (amended): in every state reached from the initial tables by any
interleaving of calls of the binding interface, (1) two sources that are
`BOUND` to the same shared VIRQ of the same controller are the same source;
(2) once `vic_bind_shared(s1, c, v, t)` has returned `OK`, then after any
further calls none of which unbinds `s1`, the source `s1` is still bound to
`(c, v)`, and a `vic_bind_shared` of another source `s2` on `(c, v)` does not
succeed and changes nothing: it returns `ERROR_BUSY` when `s2` is `UNBOUND` and
`ERROR_VIRQ_BOUND` when `s2` is not `UNBOUND`; (3) of two binds of distinct
`UNBOUND` sources racing for a free slot in range, whichever takes effect first
returns `OK` and the other returns `ERROR_BUSY`. -/
theorem vic_bind_shared_exclusive (R : vic_ranges) (history : List vic_op) :
    (∀ s1 s2 c v,
      bound_shared (vic_run R history vic_tables.init) s1 c v →
      bound_shared (vic_run R history vic_tables.init) s2 c v → s1 = s2) ∧
    (∀ s1 c v t,
      (vic_bind_shared R (vic_run R history vic_tables.init) s1 c v t).1 = .OK →
      ∀ later : List vic_op, (∀ op ∈ later, op.releases s1 = false) →
      ∀ s2 t2, s2 ≠ s1 →
        bound_shared
          (vic_run R later (vic_bind_shared R (vic_run R history vic_tables.init) s1 c v t).2)
          s1 c v ∧
        (vic_bind_shared R
          (vic_run R later (vic_bind_shared R (vic_run R history vic_tables.init) s1 c v t).2)
          s2 c v t2).1 ≠ .OK ∧
        (vic_bind_shared R
          (vic_run R later (vic_bind_shared R (vic_run R history vic_tables.init) s1 c v t).2)
          s2 c v t2).2 =
          vic_run R later (vic_bind_shared R (vic_run R history vic_tables.init) s1 c v t).2 ∧
        (((vic_run R later
            (vic_bind_shared R (vic_run R history vic_tables.init) s1 c v t).2).source s2).state
            = .UNBOUND →
          (vic_bind_shared R
            (vic_run R later (vic_bind_shared R (vic_run R history vic_tables.init) s1 c v t).2)
            s2 c v t2).1 = .ERROR_BUSY) ∧
        (((vic_run R later
            (vic_bind_shared R (vic_run R history vic_tables.init) s1 c v t).2).source s2).state
            ≠ .UNBOUND →
          (vic_bind_shared R
            (vic_run R later (vic_bind_shared R (vic_run R history vic_tables.init) s1 c v t).2)
            s2 c v t2).1 = .ERROR_VIRQ_BOUND)) ∧
    (∀ s1 s2 c v t1 t2, s1 ≠ s2 →
      ((vic_run R history vic_tables.init).source s1).state = .UNBOUND →
      ((vic_run R history vic_tables.init).source s2).state = .UNBOUND →
      (vic_run R history vic_tables.init).shared_table c v = none →
      R.shared_range v = true →
      (vic_bind_shared R (vic_run R history vic_tables.init) s1 c v t1).1 = .OK ∧
      (vic_bind_shared R
        (vic_bind_shared R (vic_run R history vic_tables.init) s1 c v t1).2 s2 c v t2).1
        = .ERROR_BUSY) := by
  have hinv := vic_run_consistent R history vic_tables.init vic_consistent_init
  refine ⟨?_, ?_, ?_⟩
  · intro s1 s2 c v h1 h2
    have e1 := hinv.2 s1 c v h1
    have e2 := hinv.2 s2 c v h2
    rw [e1] at e2
    simpa using e2
  · intro s1 c v t hok later hlater s2 t2 _
    obtain ⟨_, hrange, _, hslot, _⟩ := vic_bind_shared_ok hok
    have hinv1 := vic_bind_shared_consistent R _ s1 c v t hinv
    have hinv2 := vic_run_consistent R later _ hinv1
    have hslot2 := vic_run_keeps_slot R later _ hinv1 s1 c v hslot hlater
    obtain ⟨k1, k2, k3⟩ := vic_bind_shared_claimed R _ s2 s1 c v t2 hslot2
    exact ⟨hinv2.1 c v s1 hslot2, k1, k2, fun hun => k3 hun hrange,
      fun hb => vic_bind_shared_not_unbound R _ s2 c v t2 hb⟩
  · intro s1 s2 c v t1 t2 hne hu1 hu2 hfree hrange
    have hok : (vic_bind_shared R (vic_run R history vic_tables.init) s1 c v t1).1 = .OK := by
      simp [vic_bind_shared, hu1, hrange, hfree]
    refine ⟨hok, ?_⟩
    obtain ⟨_, _, _, hslot, _⟩ := vic_bind_shared_ok hok
    apply (vic_bind_shared_claimed R _ s2 s1 c v t2 hslot).2.2 _ hrange
    have hne2 : s2 ≠ s1 := fun e => hne e.symm
    simpa [vic_bind_shared, hu1, hrange, hfree, vic_tables.set_source, vic_tables.set_shared,
      hne2] using hu2

/-- Witness for C7 (amended): source 1 claims VIRQ 5 of controller 0; after it is asserted
and source 3 has claimed VIRQ 6, the bind of source 2 on VIRQ 5 returns
`ERROR_BUSY`. -/
theorem vic_bind_shared_exclusive_witness :
    (vic_bind_shared sample_ranges vic_tables.init 1 0 5 0).1 = .OK ∧
    (vic_bind_shared sample_ranges
      (vic_run sample_ranges [vic_op.assert 1, vic_op.bind_shared 3 0 6 0]
        (vic_bind_shared sample_ranges vic_tables.init 1 0 5 0).2) 2 0 5 0).1
      = .ERROR_BUSY :=
  ⟨by decide,
    ((vic_bind_shared_exclusive sample_ranges []).2.1 1 0 5 0 (by decide)
      [vic_op.assert 1, vic_op.bind_shared 3 0 6 0] (by decide) 2 0 (by decide)).2.2.2.1
      (by decide)⟩

end Gunyah
